import Mathlib

/-!
# Verification of the campaign participation/submission lifecycle and
# engagement-counter subsystem

Shallow embedding of the TypeScript backend:

* `CampaignController.toggleLike`  (src/app.ts)
* `ProjectController.toggleLike`   (src/controllers/AuthController.ts)
* `CampaignParticipationController.participateInCampaign` / `reviewParticipation`
  (src/controllers/CampaignParticipationController.ts)
* `CampaignSubmissionController.submitProject` / `gradeSubmission`
  (src/controllers/CampaignSubmissionController.ts)
* route validators (src/routes/submissions.ts, src/routes/campaigns.ts)
* the `update_participation_submission_status` trigger
  (migrations/add_campaign_submissions.sql)

Database rows are lists of records; Sequelize `findOne`/`findByPk` become
`List.find?` (first match), `destroy` of the found row becomes `List.eraseP`
(erase the first matching row), `create` appends, and `increment`/`decrement`
become an update of the matching row.  Timestamps are integers (epoch
milliseconds); `Date` comparison is integer comparison.  HTTP error responses
are modelled by one constructor per controller early-return branch; the
constructor names follow the spec taxonomy (401 unauthenticated,
403 forbidden, 404 notFound, and the distinct 400 branches: invalid state,
conflict, validation error).
-/

namespace FundHub

/-- Campaign lifecycle status.  From `CampaignStatus` in types and the
route validator list `[draft, active, completed, cancelled]`;
`participateInCampaign` compares against the `active` member. -/
inductive CampaignStatus where
  | draft
  | active
  | completed
  | cancelled
deriving DecidableEq, Repr

/-- User roles, from the `UserRole` enum in types. -/
inductive UserRole where
  | guest
  | baseUser
  | student
  | admin
  | institution
  | sponsor
deriving DecidableEq, Repr

/-- Student verification status.  The `VerificationStatus` enum fragment in
the sources lists pending/verified/rejected, while `AdminController`
(approval) and `CampaignParticipationController` (the gate) both use a
member `APPROVED`; the full types module is not among the sources, so the
`approved` member is included as used at those two call sites. -/
inductive VerificationStatus where
  | pending
  | verified
  | rejected
  | approved
deriving DecidableEq, Repr

/-- Participation review status: `pending | approved | rejected`
(model `CampaignParticipation.status`). -/
inductive PartStatus where
  | pending
  | approved
  | rejected
deriving DecidableEq, Repr

/-- Status of a submission row.  `SubmissionStatus` is imported from types in
the controllers (definition not among the sources); members are taken from
its uses (`SUBMITTED`, `GRADED`) and the taxonomy recorded in
migrations/add_campaign_submissions.sql:
submitted, under_review, graded, winner, runner_up, not_selected. -/
inductive SubmissionStatus where
  | submitted
  | underReview
  | graded
  | winner
  | runnerUp
  | notSelected
deriving DecidableEq, Repr

/-- `CampaignParticipation.submissionStatus`: `not_submitted` or one of the
submission statuses (same taxonomy, see the migration comment). -/
inductive PartSubStatus where
  | notSubmitted
  | status (s : SubmissionStatus)
deriving DecidableEq, Repr

/-- Campaign row (model `Campaign`, src/models).  Only the fields the
verified operations read or write are carried. -/
structure Campaign where
  id : Nat
  createdBy : Nat
  status : CampaignStatus
  fundingTrail : Bool
  likesCount : Int
  submissionStartDate : Option Int := none
  submissionEndDate : Option Int := none
deriving DecidableEq, Repr

/-- Project row (model `Project`); the engagement-counter fields. -/
structure Project where
  id : Nat
  creatorId : Nat
  likesCount : Int
deriving DecidableEq, Repr

/-- Like row for a campaign (model `CampaignLike`,
unique index `unique_campaign_user_like` on (campaign_id, user_id)). -/
structure CampaignLike where
  campaignId : Nat
  userId : Nat
deriving DecidableEq, Repr

/-- Like row for a project (model `ProjectLike`,
unique index `unique_project_user_like` on (project_id, user_id)). -/
structure ProjectLike where
  projectId : Nat
  userId : Nat
deriving DecidableEq, Repr

/-- Student row (model `Student`): verification record looked up by the
participation gate. -/
structure Student where
  userId : Nat
  verificationStatus : VerificationStatus
deriving DecidableEq, Repr

/-- Participation row (model `CampaignParticipation`). -/
structure Participation where
  id : Nat
  campaignId : Nat
  userId : Nat
  motivation : String
  experience : String
  portfolio : Option String
  additionalInfo : Option String
  status : PartStatus
  submissionStatus : PartSubStatus
  submittedAt : Int
  reviewedAt : Option Int
  reviewedBy : Option Nat
  reviewNotes : Option String
deriving DecidableEq, Repr

/-- Structured project links of a submission (`projectLinks` JSONB). -/
structure ProjectLinks where
  demoUrl : Option String := none
  githubUrl : Option String := none
  filesUrl : Option String := none
deriving DecidableEq, Repr

/-- Submission row (model `CampaignSubmission` /
table campaign_submissions). -/
structure Submission where
  id : Nat
  campaignId : Nat
  userId : Nat
  participationId : Nat
  projectTitle : String
  projectDescription : String
  projectScreenshots : List String
  projectLinks : ProjectLinks
  pitchDeckUrl : Option String
  status : SubmissionStatus
  submissionDate : Int
  score : Option Int
  grade : Option String
  feedback : Option String
  position : Option Int
  prizeAmount : Option Int
  gradedBy : Option Nat
  gradedAt : Option Int
deriving DecidableEq, Repr

/-- The durable store: one list per table. -/
structure DB where
  campaigns : List Campaign
  projects : List Project
  campaignLikes : List CampaignLike
  projectLikes : List ProjectLike
  students : List Student
  participations : List Participation
  submissions : List Submission
deriving DecidableEq, Repr

/-- Apply `f` to every row matching `p` (an SQL UPDATE with a WHERE clause;
for primary-key updates the predicate matches at most one row). -/
def updateWhere (p : α → Bool) (f : α → α) : List α → List α
  | [] => []
  | x :: xs => (if p x then f x else x) :: updateWhere p f xs

/-- `Campaign.findByPk id`. -/
def findCampaign (db : DB) (id : Nat) : Option Campaign :=
  db.campaigns.find? (fun c => c.id == id)

/-- `Project.findByPk id`. -/
def findProject (db : DB) (id : Nat) : Option Project :=
  db.projects.find? (fun p => p.id == id)

/-- `CampaignLike.findOne(where: (campaignId, userId))`. -/
def findCampaignLike (db : DB) (id uid : Nat) : Option CampaignLike :=
  db.campaignLikes.find? (fun l => l.campaignId == id && l.userId == uid)

/-- `ProjectLike.findOne(where: (projectId, userId))`. -/
def findProjectLike (db : DB) (id uid : Nat) : Option ProjectLike :=
  db.projectLikes.find? (fun l => l.projectId == id && l.userId == uid)

/-- likesCount of a campaign as reloaded after the counter update
(`campaign.reload()` then read `likesCount`). -/
def campaignLikesCount (db : DB) (id : Nat) : Int :=
  ((findCampaign db id).map Campaign.likesCount).getD 0

/-- likesCount of a project as reloaded after the counter update. -/
def projectLikesCount (db : DB) (id : Nat) : Int :=
  ((findProject db id).map Project.likesCount).getD 0

/-- Number of live Like rows for a campaign
(`COUNT(campaign_likes WHERE campaign_id = id)`). -/
def campaignLikeRows (db : DB) (id : Nat) : Nat :=
  (db.campaignLikes.filter (fun l => l.campaignId == id)).length

/-- Number of live Like rows for a project. -/
def projectLikeRows (db : DB) (id : Nat) : Nat :=
  (db.projectLikes.filter (fun l => l.projectId == id)).length

/-- Result of a toggle-like call: 401 when there is no authenticated user,
404 when the entity does not exist, otherwise the JSON body
`(liked, likesCount)`. -/
inductive ToggleResult where
  | unauthenticated
  | notFound
  | ok (liked : Bool) (likesCount : Int)
deriving DecidableEq, Repr

/-- `CampaignController.toggleLike` (src/app.ts).  Guard order as in the
source: authentication, `Campaign.findByPk`, `CampaignLike.findOne`; then
either destroy the found row and decrement `likesCount`, or create a row
and increment `likesCount`; finally reload the campaign and answer with
`liked` and the reloaded count. -/
def toggleCampaignLike (db : DB) (auth : Option Nat) (id : Nat) :
    ToggleResult × DB :=
  match auth with
  | none => (.unauthenticated, db)
  | some uid =>
    match findCampaign db id with
    | none => (.notFound, db)
    | some _ =>
      match findCampaignLike db id uid with
      | some _ =>
        let db1 : DB :=
          { db with
            campaignLikes :=
              db.campaignLikes.eraseP
                (fun l => l.campaignId == id && l.userId == uid)
            campaigns :=
              updateWhere (fun c => c.id == id)
                (fun c => { c with likesCount := c.likesCount - 1 })
                db.campaigns }
        (.ok false (campaignLikesCount db1 id), db1)
      | none =>
        let db1 : DB :=
          { db with
            campaignLikes := db.campaignLikes ++ [⟨id, uid⟩]
            campaigns :=
              updateWhere (fun c => c.id == id)
                (fun c => { c with likesCount := c.likesCount + 1 })
                db.campaigns }
        (.ok true (campaignLikesCount db1 id), db1)

/-- `ProjectController.toggleLike` (src/controllers/AuthController.ts);
same statement sequence as the campaign variant, against the
projects/project_likes tables. -/
def toggleProjectLike (db : DB) (auth : Option Nat) (id : Nat) :
    ToggleResult × DB :=
  match auth with
  | none => (.unauthenticated, db)
  | some uid =>
    match findProject db id with
    | none => (.notFound, db)
    | some _ =>
      match findProjectLike db id uid with
      | some _ =>
        let db1 : DB :=
          { db with
            projectLikes :=
              db.projectLikes.eraseP
                (fun l => l.projectId == id && l.userId == uid)
            projects :=
              updateWhere (fun p => p.id == id)
                (fun p => { p with likesCount := p.likesCount - 1 })
                db.projects }
        (.ok false (projectLikesCount db1 id), db1)
      | none =>
        let db1 : DB :=
          { db with
            projectLikes := db.projectLikes ++ [⟨id, uid⟩]
            projects :=
              updateWhere (fun p => p.id == id)
                (fun p => { p with likesCount := p.likesCount + 1 })
                db.projects }
        (.ok true (projectLikesCount db1 id), db1)

/-! ## ParticipationGate: Apply and Review -/

/-- Whitespace test for the `.trim()` sanitizer of express-validator. -/
def isWS (c : Char) : Bool :=
  c = ' ' || c = '\t' || c = '\n' || c = '\r'

/-- The `.trim()` sanitizer: strip whitespace from both ends of the string
(validator.js trim with the default whitespace set). -/
def trimChars (s : String) : String :=
  String.mk (((s.data.dropWhile isWS).reverse.dropWhile isWS).reverse)

/-- Request body of `POST /api/campaigns/participate`. -/
structure ApplyReq where
  campaignId : Nat
  motivation : String
  experience : String
  portfolio : Option String := none
  additionalInfo : Option String := none
deriving DecidableEq, Repr

/-- `participateValidation` (src/routes/campaigns.ts): campaignId an integer
at least 1; motivation and experience 10..1000 characters after trimming;
optional portfolio at most 500 and additionalInfo at most 1000 characters
after trimming.  The `.trim()` sanitizer also rewrites the stored values. -/
def applyBodyValid (b : ApplyReq) : Bool :=
  1 ≤ b.campaignId &&
  (10 ≤ (trimChars b.motivation).length && (trimChars b.motivation).length ≤ 1000) &&
  (10 ≤ (trimChars b.experience).length && (trimChars b.experience).length ≤ 1000) &&
  (match b.portfolio with
   | none => true
   | some s => (trimChars s).length ≤ 500) &&
  (match b.additionalInfo with
   | none => true
   | some s => (trimChars s).length ≤ 1000)

/-- Outcome of `participateInCampaign`; one constructor per early-return
branch of the controller (400 validation, 403 role/profile/verification,
404 campaign, 400 not active, 400 no funding trail, 400 duplicate,
201 created). -/
inductive ApplyResult where
  | validationError
  | forbiddenRole
  | forbiddenNoProfile
  | forbiddenUnverified
  | notFound
  | notActive
  | noFundingTrail
  | alreadyParticipated
  | created (p : Participation)
deriving DecidableEq, Repr

/-- `CampaignParticipationController.participateInCampaign`.  Guard order as
in the source: validation result, role is STUDENT, student profile exists,
verification approved, campaign exists, campaign active, funding trail on,
no existing participation for (campaignId, userId); then creates the
participation with status pending, submittedAt now, and the model default
submissionStatus not_submitted.  `newId` stands for the SERIAL key the
store assigns. -/
def participateInCampaign (db : DB) (now : Int) (uid : Nat) (role : UserRole)
    (b : ApplyReq) (newId : Nat) : ApplyResult × DB :=
  if ¬ applyBodyValid b then (.validationError, db)
  else if role ≠ .student then (.forbiddenRole, db)
  else
    match db.students.find? (fun st => st.userId == uid) with
    | none => (.forbiddenNoProfile, db)
    | some st =>
      if st.verificationStatus ≠ .approved then (.forbiddenUnverified, db)
      else
        match findCampaign db b.campaignId with
        | none => (.notFound, db)
        | some c =>
          if c.status ≠ .active then (.notActive, db)
          else if ¬ c.fundingTrail then (.noFundingTrail, db)
          else
            match db.participations.find?
                (fun p => p.campaignId == b.campaignId && p.userId == uid) with
            | some _ => (.alreadyParticipated, db)
            | none =>
              let p : Participation :=
                { id := newId
                  campaignId := b.campaignId
                  userId := uid
                  motivation := trimChars b.motivation
                  experience := trimChars b.experience
                  portfolio := b.portfolio.map trimChars
                  additionalInfo := b.additionalInfo.map trimChars
                  status := .pending
                  submissionStatus := .notSubmitted
                  submittedAt := now
                  reviewedAt := none
                  reviewedBy := none
                  reviewNotes := none }
              (.created p, { db with participations := db.participations ++ [p] })

/-- Review decision: `reviewParticipationValidation` restricts the `status`
body field to approved or rejected. -/
inductive ReviewDecision where
  | approved
  | rejected
deriving DecidableEq, Repr

/-- The participation status a review decision writes. -/
def ReviewDecision.toStatus : ReviewDecision → PartStatus
  | .approved => .approved
  | .rejected => .rejected

/-- `reviewParticipationValidation` on the optional notes: at most 500
characters after trimming. -/
def reviewBodyValid (notes : Option String) : Bool :=
  match notes with
  | none => true
  | some s => (trimChars s).length ≤ 500

/-- Outcome of `reviewParticipation`.  `missingCampaign` models the uncaught
TypeError (500) when the included campaign association is absent. -/
inductive ReviewResult where
  | validationError
  | notFound
  | missingCampaign
  | forbidden
  | ok (p : Participation)
deriving DecidableEq, Repr

/-- Field update a successful review performs on the participation row:
status from the decision, reviewedAt/reviewedBy set; reviewNotes written
(trimmed) when present in the body and left unchanged when the key is
undefined (Sequelize ignores undefined values in `update`). -/
def applyReview (now : Int) (uid : Nat) (d : ReviewDecision)
    (notes : Option String) (q : Participation) : Participation :=
  { q with
    status := d.toStatus
    reviewNotes := match notes with
      | some s => some (trimChars s)
      | none => q.reviewNotes
    reviewedAt := some now
    reviewedBy := some uid }

/-- `CampaignParticipationController.reviewParticipation`: validation,
`findByPk` with the campaign included, creator-or-admin check, then
`participation.update(status, reviewNotes, reviewedAt, reviewedBy)`. -/
def reviewParticipation (db : DB) (now : Int) (uid : Nat) (role : UserRole)
    (pid : Nat) (d : ReviewDecision) (notes : Option String) :
    ReviewResult × DB :=
  if ¬ reviewBodyValid notes then (.validationError, db)
  else
    match db.participations.find? (fun p => p.id == pid) with
    | none => (.notFound, db)
    | some p =>
      match findCampaign db p.campaignId with
      | none => (.missingCampaign, db)
      | some c =>
        if c.createdBy ≠ uid ∧ role ≠ .admin then (.forbidden, db)
        else
          let p1 := applyReview now uid d notes p
          (.ok p1,
           { db with
             participations :=
               updateWhere (fun q => q.id == pid)
                 (applyReview now uid d notes) db.participations })

/-! ## SubmissionWindow: Submit -/

/-- Request body of `POST /api/campaigns/:id/submit`. -/
structure SubmitReq where
  projectTitle : String
  projectDescription : String
  projectScreenshots : List String
  projectLinks : ProjectLinks := {}
  pitchDeckUrl : Option String := none
deriving DecidableEq, Repr

/-- `campaign.submissionStartDate && now < campaign.submissionStartDate`:
the submission period has not started yet. -/
def beforeStart (now : Int) (c : Campaign) : Bool :=
  match c.submissionStartDate with
  | some s => decide (now < s)
  | none => false

/-- `campaign.submissionEndDate && now > campaign.submissionEndDate`:
the submission period has ended. -/
def afterEnd (now : Int) (c : Campaign) : Bool :=
  match c.submissionEndDate with
  | some e => decide (e < now)
  | none => false

/-- Outcome of `submitProject`; one constructor per early-return branch
(400 validation, 403 role, 404 campaign, 400 window not open, 400 window
closed, 403 no approved participation, 400 duplicate, 201 created). -/
inductive SubmitResult where
  | validationError
  | forbiddenRole
  | notFound
  | windowNotOpen
  | windowClosed
  | forbiddenNotApproved
  | alreadySubmitted
  | created (s : Submission)
deriving DecidableEq, Repr

/-- `CampaignSubmissionController.submitProject`.  `ve` is the outcome of
`validationResult(req)` for `submitProjectValidation`
(src/routes/submissions.ts: title 3..255, description at least 10
characters, at least one screenshot, URL-shaped fields); the controller
only branches on whether that error list is non-empty, and the URL checks
live in the validator library, so the flag is passed in.  Guard order as
in the source: validation, role is STUDENT, campaign exists,
`now < submissionStartDate` (when set) rejects, `now > submissionEndDate`
(when set) rejects, an approved participation for (campaignId, userId)
exists, no submission exists for that participation; then creates the
submission with status submitted and submissionDate now.  The AFTER INSERT
trigger `update_participation_submission_status` sets the participation's
submission_status to submitted. -/
def submitProject (db : DB) (now : Int) (uid : Nat) (role : UserRole)
    (campaignId : Nat) (b : SubmitReq) (ve : Bool) (newId : Nat) :
    SubmitResult × DB :=
  if ve then (.validationError, db)
  else if role ≠ .student then (.forbiddenRole, db)
  else
    match findCampaign db campaignId with
    | none => (.notFound, db)
    | some c =>
      if beforeStart now c then (.windowNotOpen, db)
      else if afterEnd now c then (.windowClosed, db)
      else
        match db.participations.find?
            (fun p => p.campaignId == campaignId && p.userId == uid &&
                      p.status == PartStatus.approved) with
        | none => (.forbiddenNotApproved, db)
        | some part =>
          match db.submissions.find?
              (fun s => s.participationId == part.id) with
          | some _ => (.alreadySubmitted, db)
          | none =>
            let s : Submission :=
              { id := newId
                campaignId := campaignId
                userId := uid
                participationId := part.id
                projectTitle := b.projectTitle
                projectDescription := b.projectDescription
                projectScreenshots := b.projectScreenshots
                projectLinks := b.projectLinks
                pitchDeckUrl := b.pitchDeckUrl
                status := .submitted
                submissionDate := now
                score := none
                grade := none
                feedback := none
                position := none
                prizeAmount := none
                gradedBy := none
                gradedAt := none }
            (.created s,
             { db with
               submissions := db.submissions ++ [s]
               participations :=
                 updateWhere (fun q => q.id == part.id)
                   (fun q => { q with submissionStatus := .status .submitted })
                   db.participations })

/-! ## GradingEngine: Grade -/

/-- Request body of `PUT /api/submissions/:id/grade`.  `score` and
`position` arrive as integers, `status` as a raw string the validator
restricts. -/
structure GradeReq where
  score : Int
  grade : String
  feedback : Option String := none
  status : Option String := none
  position : Option Int := none
  prizeAmount : Option Int := none
deriving DecidableEq, Repr

/-- Letter grades accepted by `gradeSubmissionValidation`. -/
def validGrades : List String := ["A+", "A", "B+", "B", "C+", "C", "D", "F"]

/-- Status strings accepted by `gradeSubmissionValidation`. -/
def validGradeStatuses : List String :=
  ["graded", "winner", "runner_up", "not_selected"]

/-- The submission status named by one of the accepted strings. -/
def parseSubStatus (s : String) : Option SubmissionStatus :=
  if s = "graded" then some .graded
  else if s = "winner" then some .winner
  else if s = "runner_up" then some .runnerUp
  else if s = "not_selected" then some .notSelected
  else none

/-- `gradeSubmissionValidation` (src/routes/submissions.ts): score an
integer in [0,100]; grade in the letter list; optional status in the
status list; optional position an integer in [1,3].  (`feedback` must be a
string and `prizeAmount` a decimal; both hold for the typed fields.) -/
def gradeBodyValid (b : GradeReq) : Bool :=
  (0 ≤ b.score && b.score ≤ 100) &&
  validGrades.contains b.grade &&
  (match b.status with
   | none => true
   | some s => validGradeStatuses.contains s) &&
  (match b.position with
   | none => true
   | some p => 1 ≤ p && p ≤ 3)

/-- Outcome of `gradeSubmission` (400 validation, 404 submission,
500 association missing, 403 not creator/admin, 200 graded). -/
inductive GradeResult where
  | validationError
  | notFound
  | missingCampaign
  | forbidden
  | ok (s : Submission)
deriving DecidableEq, Repr

/-- The status value `gradeSubmission` writes:
`status || SubmissionStatus.GRADED`. -/
def gradeStatusOf (b : GradeReq) : SubmissionStatus :=
  match b.status with
  | some str => (parseSubStatus str).getD .graded
  | none => .graded

/-- Field update `submission.update(...)` performs: score, grade, gradedBy,
gradedAt always written; status written (defaulting to graded); feedback,
position, prizeAmount written only when present in the body (Sequelize
ignores undefined values in `update`). -/
def applyGrade (now : Int) (uid : Nat) (b : GradeReq) (s : Submission) :
    Submission :=
  { s with
    score := some b.score
    grade := some b.grade
    feedback := match b.feedback with
      | some f => some f
      | none => s.feedback
    status := gradeStatusOf b
    position := match b.position with
      | some p => some p
      | none => s.position
    prizeAmount := match b.prizeAmount with
      | some a => some a
      | none => s.prizeAmount
    gradedBy := some uid
    gradedAt := some now }

/-- `CampaignSubmissionController.gradeSubmission` behind
`gradeSubmissionValidation`: validation, `findByPk` with the campaign
included, creator-or-admin check, then the update.  The AFTER UPDATE
trigger `update_participation_submission_status` copies the new submission
status onto the owning participation's submission_status. -/
def gradeSubmission (db : DB) (now : Int) (uid : Nat) (role : UserRole)
    (sid : Nat) (b : GradeReq) : GradeResult × DB :=
  if ¬ gradeBodyValid b then (.validationError, db)
  else
    match db.submissions.find? (fun s => s.id == sid) with
    | none => (.notFound, db)
    | some s =>
      match findCampaign db s.campaignId with
      | none => (.missingCampaign, db)
      | some c =>
        if c.createdBy ≠ uid ∧ role ≠ .admin then (.forbidden, db)
        else
          let s1 := applyGrade now uid b s
          (.ok s1,
           { db with
             submissions :=
               updateWhere (fun t => t.id == sid) (applyGrade now uid b)
                 db.submissions
             participations :=
               updateWhere (fun q => q.id == s.participationId)
                 (fun q => { q with submissionStatus := .status (gradeStatusOf b) })
                 db.participations })

/-! ## List-level lemmas about `updateWhere`, `find?`, `eraseP` -/

theorem mem_updateWhere {α : Type} (p : α → Bool) (f : α → α) :
    ∀ l : List α, ∀ b ∈ updateWhere p f l, ∃ a ∈ l, b = if p a then f a else a := by
  intro l
  induction l with
  | nil => intro b hb; simp [updateWhere] at hb
  | cons x xs ih =>
    intro b hb
    simp only [updateWhere, List.mem_cons] at hb
    rcases hb with hb | hb
    · exact ⟨x, List.mem_cons_self x xs, hb⟩
    · obtain ⟨a, ha, hval⟩ := ih b hb
      exact ⟨a, List.mem_cons_of_mem x ha, hval⟩

theorem find?_updateWhere {α : Type} (p : α → Bool) (f : α → α)
    (hf : ∀ a, p (f a) = p a) :
    ∀ l : List α, (updateWhere p f l).find? p = (l.find? p).map f := by
  intro l
  induction l with
  | nil => simp [updateWhere]
  | cons x xs ih =>
    by_cases h : p x = true
    · simp [updateWhere, h, List.find?_cons_of_pos, hf]
    · have h' : p x = false := by simpa using h
      simp [updateWhere, h', List.find?_cons_of_neg, ih]

theorem updateWhere_updateWhere {α : Type} (p : α → Bool) (f g : α → α)
    (hg : ∀ a, p (g a) = p a) :
    ∀ l : List α,
      updateWhere p f (updateWhere p g l) = updateWhere p (fun a => f (g a)) l := by
  intro l
  induction l with
  | nil => rfl
  | cons x xs ih =>
    by_cases h : p x = true
    · simp [updateWhere, h, hg, ih]
    · have h' : p x = false := by simpa using h
      simp [updateWhere, h', ih]

theorem updateWhere_eq_self {α : Type} (p : α → Bool) (f : α → α)
    (hf : ∀ a, p a = true → f a = a) :
    ∀ l : List α, updateWhere p f l = l := by
  intro l
  induction l with
  | nil => rfl
  | cons x xs ih =>
    by_cases h : p x = true
    · simp [updateWhere, h, hf x h, ih]
    · have h' : p x = false := by simpa using h
      simp [updateWhere, h', ih]

theorem length_filter_eraseP {α : Type} (q r : α → Bool)
    (hqr : ∀ a, q a = true → r a = true) :
    ∀ l : List α, (l.find? q).isSome →
      ((l.eraseP q).filter r).length + 1 = (l.filter r).length := by
  intro l
  induction l with
  | nil => intro h; simp at h
  | cons x xs ih =>
    intro h
    by_cases hx : q x = true
    · simp [List.eraseP_cons_of_pos hx, List.filter_cons, hqr x hx]
    · have hs : (xs.find? q).isSome := by
        simpa [List.find?_cons_of_neg _ hx] using h
      by_cases hr : r x = true
      · have hih := ih hs
        simp only [List.eraseP_cons_of_neg hx, List.filter_cons, hr,
          if_true, List.length_cons]
        omega
      · have hr' : r x = false := by simpa using hr
        simpa [List.eraseP_cons_of_neg hx, List.filter_cons, hr'] using ih hs

theorem filter_eraseP_of_disjoint {α : Type} (q r : α → Bool)
    (h : ∀ a, q a = true → r a = false) :
    ∀ l : List α, (l.eraseP q).filter r = l.filter r := by
  intro l
  induction l with
  | nil => rfl
  | cons x xs ih =>
    by_cases hx : q x = true
    · simp [List.eraseP_cons_of_pos hx, List.filter_cons, h x hx]
    · simp [List.eraseP_cons_of_neg hx, List.filter_cons, ih]

theorem find?_append_of_forall_not {α : Type} (q : α → Bool) (l₁ l₂ : List α)
    (h : ∀ a ∈ l₁, ¬ q a = true) :
    (l₁ ++ l₂).find? q = l₂.find? q := by
  induction l₁ with
  | nil => rfl
  | cons x xs ih =>
    have hx : ¬ q x = true := h x (List.mem_cons_self x xs)
    rw [List.cons_append, List.find?_cons_of_neg _ hx]
    exact ih (fun a ha => h a (List.mem_cons_of_mem x ha))

theorem eraseP_append_of_forall_not {α : Type} (q : α → Bool) (l₁ l₂ : List α)
    (h : ∀ a ∈ l₁, ¬ q a = true) :
    (l₁ ++ l₂).eraseP q = l₁ ++ l₂.eraseP q := by
  induction l₁ with
  | nil => rfl
  | cons x xs ih =>
    have hx : ¬ q x = true := h x (List.mem_cons_self x xs)
    rw [List.cons_append, List.eraseP_cons_of_neg hx, List.cons_append]
    exact congrArg (x :: ·) (ih (fun a ha => h a (List.mem_cons_of_mem x ha)))

theorem find?_eraseP_of_unique {α : Type} (q : α → Bool) :
    ∀ l : List α, l.Pairwise (fun a b => ¬(q a = true ∧ q b = true)) →
      (l.eraseP q).find? q = none := by
  intro l
  induction l with
  | nil => intro _; rfl
  | cons x xs ih =>
    intro hp
    rcases List.pairwise_cons.mp hp with ⟨hhead, htail⟩
    by_cases hx : q x = true
    · rw [List.eraseP_cons_of_pos hx]
      rw [List.find?_eq_none]
      intro a ha hqa
      exact hhead a ha ⟨hx, hqa⟩
    · rw [List.eraseP_cons_of_neg hx, List.find?_cons_of_neg _ hx]
      exact ih htail

/-! ## The counter-mirror invariant -/

/-- Every campaign's denormalized `likesCount` equals the number of live
CampaignLike rows for it. -/
def CampaignConsistent (db : DB) : Prop :=
  ∀ c ∈ db.campaigns, c.likesCount = (campaignLikeRows db c.id : Int)

/-- Every project's denormalized `likesCount` equals the number of live
ProjectLike rows for it. -/
def ProjectConsistent (db : DB) : Prop :=
  ∀ p ∈ db.projects, p.likesCount = (projectLikeRows db p.id : Int)

/-- `likesCount` mirrors the Like rows on every entity, campaign or
project. -/
def Consistent (db : DB) : Prop := CampaignConsistent db ∧ ProjectConsistent db

/-- One toggle-like request: entity kind, optional caller identity, and the
entity id. -/
inductive ToggleCall where
  | campaign (auth : Option Nat) (id : Nat)
  | project (auth : Option Nat) (id : Nat)
deriving DecidableEq, Repr

/-- Run a sequence of toggle-like requests one after the other. -/
def runToggles (db : DB) : List ToggleCall → DB
  | [] => db
  | .campaign a i :: rest => runToggles (toggleCampaignLike db a i).2 rest
  | .project a i :: rest => runToggles (toggleProjectLike db a i).2 rest

theorem toggleCampaignLike_consistent (db : DB) (a : Option Nat) (i : Nat)
    (h : Consistent db) : Consistent (toggleCampaignLike db a i).2 := by
  obtain ⟨h₁, h₂⟩ := h
  cases a with
  | none => exact ⟨h₁, h₂⟩
  | some uid =>
    cases hc : findCampaign db i with
    | none => simpa [toggleCampaignLike, hc] using And.intro h₁ h₂
    | some c =>
      cases hl : findCampaignLike db i uid with
      | some l₀ =>
        constructor
        · intro c' hmem
          simp only [toggleCampaignLike, hc, hl] at hmem ⊢
          obtain ⟨cOld, hcm, hval⟩ := mem_updateWhere _ _ _ c' hmem
          have hold := h₁ cOld hcm
          by_cases hk : (cOld.id == i) = true
          · have hid : cOld.id = i := by simpa using hk
            subst hid
            rw [if_pos hk] at hval
            subst hval
            have hsome : (db.campaignLikes.find?
                (fun l => l.campaignId == cOld.id && l.userId == uid)).isSome := by
              rw [show db.campaignLikes.find?
                  (fun l => l.campaignId == cOld.id && l.userId == uid) =
                  findCampaignLike db cOld.id uid from rfl, hl]
              rfl
            have hrows := length_filter_eraseP
              (fun l => l.campaignId == cOld.id && l.userId == uid)
              (fun l => l.campaignId == cOld.id)
              (fun a ha => by
                simp only [Bool.and_eq_true] at ha
                exact ha.1)
              db.campaignLikes hsome
            simp only [campaignLikeRows] at hold ⊢
            omega
          · rw [if_neg hk] at hval
            subst hval
            have hne : ¬ c'.id = i := by simpa using hk
            have hfil := filter_eraseP_of_disjoint
              (fun l => l.campaignId == i && l.userId == uid)
              (fun l => l.campaignId == c'.id)
              (fun a ha => by
                simp only [Bool.and_eq_true, beq_iff_eq] at ha
                simp [ha.1, Ne.symm hne])
              db.campaignLikes
            simp only [campaignLikeRows] at hold ⊢
            rw [hfil]
            exact hold
        · intro p hmem
          simp only [toggleCampaignLike, hc, hl] at hmem ⊢
          exact h₂ p hmem
      | none =>
        constructor
        · intro c' hmem
          simp only [toggleCampaignLike, hc, hl] at hmem ⊢
          obtain ⟨cOld, hcm, hval⟩ := mem_updateWhere _ _ _ c' hmem
          have hold := h₁ cOld hcm
          by_cases hk : (cOld.id == i) = true
          · have hid : cOld.id = i := by simpa using hk
            subst hid
            rw [if_pos hk] at hval
            subst hval
            simp only [campaignLikeRows, List.filter_append,
              List.length_append] at hold ⊢
            have : (List.filter (fun l => l.campaignId == cOld.id)
                [(⟨cOld.id, uid⟩ : CampaignLike)]).length = 1 := by
              simp
            omega
          · rw [if_neg hk] at hval
            subst hval
            have hne : ¬ c'.id = i := by simpa using hk
            simp only [campaignLikeRows, List.filter_append,
              List.length_append] at hold ⊢
            have : (List.filter (fun l => l.campaignId == c'.id)
                [(⟨i, uid⟩ : CampaignLike)]).length = 0 := by
              simp [Ne.symm hne]
            omega
        · intro p hmem
          simp only [toggleCampaignLike, hc, hl] at hmem ⊢
          exact h₂ p hmem

theorem toggleProjectLike_consistent (db : DB) (a : Option Nat) (i : Nat)
    (h : Consistent db) : Consistent (toggleProjectLike db a i).2 := by
  obtain ⟨h₁, h₂⟩ := h
  cases a with
  | none => exact ⟨h₁, h₂⟩
  | some uid =>
    cases hc : findProject db i with
    | none => simpa [toggleProjectLike, hc] using And.intro h₁ h₂
    | some c =>
      cases hl : findProjectLike db i uid with
      | some l₀ =>
        constructor
        · intro c' hmem
          simp only [toggleProjectLike, hc, hl] at hmem ⊢
          exact h₁ c' hmem
        · intro p' hmem
          simp only [toggleProjectLike, hc, hl] at hmem ⊢
          obtain ⟨pOld, hpm, hval⟩ := mem_updateWhere _ _ _ p' hmem
          have hold := h₂ pOld hpm
          by_cases hk : (pOld.id == i) = true
          · have hid : pOld.id = i := by simpa using hk
            subst hid
            rw [if_pos hk] at hval
            subst hval
            have hsome : (db.projectLikes.find?
                (fun l => l.projectId == pOld.id && l.userId == uid)).isSome := by
              rw [show db.projectLikes.find?
                  (fun l => l.projectId == pOld.id && l.userId == uid) =
                  findProjectLike db pOld.id uid from rfl, hl]
              rfl
            have hrows := length_filter_eraseP
              (fun l => l.projectId == pOld.id && l.userId == uid)
              (fun l => l.projectId == pOld.id)
              (fun a ha => by
                simp only [Bool.and_eq_true] at ha
                exact ha.1)
              db.projectLikes hsome
            simp only [projectLikeRows] at hold ⊢
            omega
          · rw [if_neg hk] at hval
            subst hval
            have hne : ¬ p'.id = i := by simpa using hk
            have hfil := filter_eraseP_of_disjoint
              (fun l => l.projectId == i && l.userId == uid)
              (fun l => l.projectId == p'.id)
              (fun a ha => by
                simp only [Bool.and_eq_true, beq_iff_eq] at ha
                simp [ha.1, Ne.symm hne])
              db.projectLikes
            simp only [projectLikeRows] at hold ⊢
            rw [hfil]
            exact hold
      | none =>
        constructor
        · intro c' hmem
          simp only [toggleProjectLike, hc, hl] at hmem ⊢
          exact h₁ c' hmem
        · intro p' hmem
          simp only [toggleProjectLike, hc, hl] at hmem ⊢
          obtain ⟨pOld, hpm, hval⟩ := mem_updateWhere _ _ _ p' hmem
          have hold := h₂ pOld hpm
          by_cases hk : (pOld.id == i) = true
          · have hid : pOld.id = i := by simpa using hk
            subst hid
            rw [if_pos hk] at hval
            subst hval
            simp only [projectLikeRows, List.filter_append,
              List.length_append] at hold ⊢
            have : (List.filter (fun l => l.projectId == pOld.id)
                [(⟨pOld.id, uid⟩ : ProjectLike)]).length = 1 := by
              simp
            omega
          · rw [if_neg hk] at hval
            subst hval
            have hne : ¬ p'.id = i := by simpa using hk
            simp only [projectLikeRows, List.filter_append,
              List.length_append] at hold ⊢
            have : (List.filter (fun l => l.projectId == p'.id)
                [(⟨i, uid⟩ : ProjectLike)]).length = 0 := by
              simp [Ne.symm hne]
            omega

theorem runToggles_consistent (calls : List ToggleCall) :
    ∀ db : DB, Consistent db → Consistent (runToggles db calls) := by
  induction calls with
  | nil => intro db h; exact h
  | cons c rest ih =>
    intro db h
    cases c with
    | campaign a i =>
      exact ih _ (toggleCampaignLike_consistent db a i h)
    | project a i =>
      exact ih _ (toggleProjectLike_consistent db a i h)

/-- The like branch of `CampaignController.toggleLike` written out: when the
campaign exists and no Like row exists for (id, u), the call appends the
row, increments the campaign counter, and reports liked with the reloaded
count. -/
theorem toggleCampaignLike_like_eq (db : DB) (u i : Nat) (c : Campaign)
    (hc : findCampaign db i = some c)
    (hnone : findCampaignLike db i u = none) :
    toggleCampaignLike db (some u) i =
      ((.ok true (campaignLikesCount
          { db with
            campaignLikes := db.campaignLikes ++ [⟨i, u⟩]
            campaigns :=
              updateWhere (fun x => x.id == i)
                (fun x => { x with likesCount := x.likesCount + 1 })
                db.campaigns } i)),
       { db with
         campaignLikes := db.campaignLikes ++ [⟨i, u⟩]
         campaigns :=
           updateWhere (fun x => x.id == i)
             (fun x => { x with likesCount := x.likesCount + 1 })
             db.campaigns }) := by
  simp only [toggleCampaignLike, hc, hnone]

/-- The unlike branch of `CampaignController.toggleLike` written out: when
the campaign exists and a Like row exists for (id, u), the call erases the
found row, decrements the campaign counter, and reports not-liked with the
reloaded count. -/
theorem toggleCampaignLike_unlike_eq (db : DB) (u i : Nat) (c : Campaign)
    (l₀ : CampaignLike) (hc : findCampaign db i = some c)
    (hl : findCampaignLike db i u = some l₀) :
    toggleCampaignLike db (some u) i =
      ((.ok false (campaignLikesCount
          { db with
            campaignLikes :=
              db.campaignLikes.eraseP
                (fun l => l.campaignId == i && l.userId == u)
            campaigns :=
              updateWhere (fun x => x.id == i)
                (fun x => { x with likesCount := x.likesCount - 1 })
                db.campaigns } i)),
       { db with
         campaignLikes :=
           db.campaignLikes.eraseP
             (fun l => l.campaignId == i && l.userId == u)
         campaigns :=
           updateWhere (fun x => x.id == i)
             (fun x => { x with likesCount := x.likesCount - 1 })
             db.campaigns }) := by
  simp only [toggleCampaignLike, hc, hl]

/-- Like branch of `ProjectController.toggleLike` written out. -/
theorem toggleProjectLike_like_eq (db : DB) (u i : Nat) (p : Project)
    (hp : findProject db i = some p)
    (hnone : findProjectLike db i u = none) :
    toggleProjectLike db (some u) i =
      ((.ok true (projectLikesCount
          { db with
            projectLikes := db.projectLikes ++ [⟨i, u⟩]
            projects :=
              updateWhere (fun x => x.id == i)
                (fun x => { x with likesCount := x.likesCount + 1 })
                db.projects } i)),
       { db with
         projectLikes := db.projectLikes ++ [⟨i, u⟩]
         projects :=
           updateWhere (fun x => x.id == i)
             (fun x => { x with likesCount := x.likesCount + 1 })
             db.projects }) := by
  simp only [toggleProjectLike, hp, hnone]

/-- Unlike branch of `ProjectController.toggleLike` written out. -/
theorem toggleProjectLike_unlike_eq (db : DB) (u i : Nat) (p : Project)
    (l₀ : ProjectLike) (hp : findProject db i = some p)
    (hl : findProjectLike db i u = some l₀) :
    toggleProjectLike db (some u) i =
      ((.ok false (projectLikesCount
          { db with
            projectLikes :=
              db.projectLikes.eraseP
                (fun l => l.projectId == i && l.userId == u)
            projects :=
              updateWhere (fun x => x.id == i)
                (fun x => { x with likesCount := x.likesCount - 1 })
                db.projects } i)),
       { db with
         projectLikes :=
           db.projectLikes.eraseP
             (fun l => l.projectId == i && l.userId == u)
         projects :=
           updateWhere (fun x => x.id == i)
             (fun x => { x with likesCount := x.likesCount - 1 })
             db.projects }) := by
  simp only [toggleProjectLike, hp, hl]

theorem toggleCampaignLike_twice (db : DB) (u i : Nat) (c : Campaign)
    (hc : findCampaign db i = some c)
    (hnone : findCampaignLike db i u = none) :
    (toggleCampaignLike (toggleCampaignLike db (some u) i).2 (some u) i).2 = db := by
  have hforall : ∀ a ∈ db.campaignLikes,
      ¬ (a.campaignId == i && a.userId == u) = true :=
    List.find?_eq_none.mp hnone
  rw [toggleCampaignLike_like_eq db u i c hc hnone]
  have h1 : findCampaign
      { db with
        campaignLikes := db.campaignLikes ++ [⟨i, u⟩]
        campaigns :=
          updateWhere (fun x => x.id == i)
            (fun x => { x with likesCount := x.likesCount + 1 })
            db.campaigns } i =
      some { c with likesCount := c.likesCount + 1 } := by
    show (updateWhere (fun (x : Campaign) => x.id == i)
        (fun x => { x with likesCount := x.likesCount + 1 })
        db.campaigns).find? (fun x => x.id == i) =
      some { c with likesCount := c.likesCount + 1 }
    rw [find?_updateWhere (fun (x : Campaign) => x.id == i)
      (fun (x : Campaign) => { x with likesCount := x.likesCount + 1 })
      (fun a => rfl)]
    rw [show db.campaigns.find? (fun x => x.id == i) = findCampaign db i from rfl,
      hc]
    rfl
  have h2 : findCampaignLike
      { db with
        campaignLikes := db.campaignLikes ++ [⟨i, u⟩]
        campaigns :=
          updateWhere (fun x => x.id == i)
            (fun x => { x with likesCount := x.likesCount + 1 })
            db.campaigns } i u =
      some ⟨i, u⟩ := by
    show (db.campaignLikes ++ [(⟨i, u⟩ : CampaignLike)]).find?
        (fun l => l.campaignId == i && l.userId == u) =
      some (⟨i, u⟩ : CampaignLike)
    rw [find?_append_of_forall_not _ _ _ hforall]
    simp
  rw [toggleCampaignLike_unlike_eq _ u i _ _ h1 h2]
  have hlikes : ((db.campaignLikes ++ [(⟨i, u⟩ : CampaignLike)]).eraseP
      (fun l => l.campaignId == i && l.userId == u)) = db.campaignLikes := by
    rw [eraseP_append_of_forall_not _ _ _ hforall]
    simp [List.eraseP_cons_of_pos]
  have hcamps : updateWhere (fun (x : Campaign) => x.id == i)
      (fun x => { x with likesCount := x.likesCount - 1 })
      (updateWhere (fun x => x.id == i)
        (fun x => { x with likesCount := x.likesCount + 1 })
        db.campaigns) = db.campaigns := by
    rw [updateWhere_updateWhere (fun (x : Campaign) => x.id == i)
      (fun (x : Campaign) => { x with likesCount := x.likesCount - 1 })
      (fun (x : Campaign) => { x with likesCount := x.likesCount + 1 })
      (fun a => rfl)]
    exact updateWhere_eq_self _ _ (fun a _ => by cases a; simp) _
  show ({ db with
      campaignLikes := ((db.campaignLikes ++ [(⟨i, u⟩ : CampaignLike)]).eraseP
        (fun l => l.campaignId == i && l.userId == u))
      campaigns := updateWhere (fun (x : Campaign) => x.id == i)
        (fun x => { x with likesCount := x.likesCount - 1 })
        (updateWhere (fun x => x.id == i)
          (fun x => { x with likesCount := x.likesCount + 1 })
          db.campaigns) } : DB) = db
  rw [hlikes, hcamps]

theorem toggleProjectLike_twice (db : DB) (u i : Nat) (p : Project)
    (hp : findProject db i = some p)
    (hnone : findProjectLike db i u = none) :
    (toggleProjectLike (toggleProjectLike db (some u) i).2 (some u) i).2 = db := by
  have hforall : ∀ a ∈ db.projectLikes,
      ¬ (a.projectId == i && a.userId == u) = true :=
    List.find?_eq_none.mp hnone
  rw [toggleProjectLike_like_eq db u i p hp hnone]
  have h1 : findProject
      { db with
        projectLikes := db.projectLikes ++ [⟨i, u⟩]
        projects :=
          updateWhere (fun x => x.id == i)
            (fun x => { x with likesCount := x.likesCount + 1 })
            db.projects } i =
      some { p with likesCount := p.likesCount + 1 } := by
    show (updateWhere (fun (x : Project) => x.id == i)
        (fun x => { x with likesCount := x.likesCount + 1 })
        db.projects).find? (fun x => x.id == i) =
      some { p with likesCount := p.likesCount + 1 }
    rw [find?_updateWhere (fun (x : Project) => x.id == i)
      (fun (x : Project) => { x with likesCount := x.likesCount + 1 })
      (fun a => rfl)]
    rw [show db.projects.find? (fun x => x.id == i) = findProject db i from rfl,
      hp]
    rfl
  have h2 : findProjectLike
      { db with
        projectLikes := db.projectLikes ++ [⟨i, u⟩]
        projects :=
          updateWhere (fun x => x.id == i)
            (fun x => { x with likesCount := x.likesCount + 1 })
            db.projects } i u =
      some ⟨i, u⟩ := by
    show (db.projectLikes ++ [(⟨i, u⟩ : ProjectLike)]).find?
        (fun l => l.projectId == i && l.userId == u) =
      some (⟨i, u⟩ : ProjectLike)
    rw [find?_append_of_forall_not _ _ _ hforall]
    simp
  rw [toggleProjectLike_unlike_eq _ u i _ _ h1 h2]
  have hlikes : ((db.projectLikes ++ [(⟨i, u⟩ : ProjectLike)]).eraseP
      (fun l => l.projectId == i && l.userId == u)) = db.projectLikes := by
    rw [eraseP_append_of_forall_not _ _ _ hforall]
    simp [List.eraseP_cons_of_pos]
  have hprojs : updateWhere (fun (x : Project) => x.id == i)
      (fun x => { x with likesCount := x.likesCount - 1 })
      (updateWhere (fun x => x.id == i)
        (fun x => { x with likesCount := x.likesCount + 1 })
        db.projects) = db.projects := by
    rw [updateWhere_updateWhere (fun (x : Project) => x.id == i)
      (fun (x : Project) => { x with likesCount := x.likesCount - 1 })
      (fun (x : Project) => { x with likesCount := x.likesCount + 1 })
      (fun a => rfl)]
    exact updateWhere_eq_self _ _ (fun a _ => by cases a; simp) _
  show ({ db with
      projectLikes := ((db.projectLikes ++ [(⟨i, u⟩ : ProjectLike)]).eraseP
        (fun l => l.projectId == i && l.userId == u))
      projects := updateWhere (fun (x : Project) => x.id == i)
        (fun x => { x with likesCount := x.likesCount - 1 })
        (updateWhere (fun x => x.id == i)
          (fun x => { x with likesCount := x.likesCount + 1 })
          db.projects) } : DB) = db
  rw [hlikes, hprojs]

/-- **C1**: starting from a state where every entity's `likesCount` equals
the number of its Like rows, any sequence of sequential ToggleLike calls
(campaign or project, any callers) preserves that equality; and two
sequential toggles by the same user on an entity the user has not liked
return the store to exactly the original state (original liked=false
membership and original count). -/
theorem toggleLike_mirror_and_involutive (db : DB) (calls : List ToggleCall)
    (u i v j : Nat) (c : Campaign) (p : Project)
    (h : Consistent db)
    (hc : findCampaign db i = some c)
    (hcl : findCampaignLike db i u = none)
    (hp : findProject db j = some p)
    (hpl : findProjectLike db j v = none) :
    Consistent (runToggles db calls) ∧
    (toggleCampaignLike (toggleCampaignLike db (some u) i).2 (some u) i).2 = db ∧
    (toggleProjectLike (toggleProjectLike db (some v) j).2 (some v) j).2 = db :=
  ⟨runToggles_consistent calls db h,
   toggleCampaignLike_twice db u i c hc hcl,
   toggleProjectLike_twice db v j p hp hpl⟩

theorem find?_updateWhere_some {α : Type} (p : α → Bool) (f : α → α)
    (hf : ∀ a, p (f a) = p a) (l : List α) (a : α)
    (ha : l.find? p = some a) :
    (updateWhere p f l).find? p = some (f a) := by
  rw [find?_updateWhere p f hf, ha]
  rfl

/-- Uniqueness of campaign Like rows, as the
`unique_campaign_user_like` index guarantees: no two rows share the
(campaignId, userId) pair. -/
def UniqueCampaignLikes (db : DB) : Prop :=
  db.campaignLikes.Pairwise
    (fun a b => ¬(a.campaignId = b.campaignId ∧ a.userId = b.userId))

/-- Uniqueness of project Like rows (`unique_project_user_like`). -/
def UniqueProjectLikes (db : DB) : Prop :=
  db.projectLikes.Pairwise
    (fun a b => ¬(a.projectId = b.projectId ∧ a.userId = b.userId))

theorem campaignToggle_cases (db : DB) (uid i : Nat)
    (huc : UniqueCampaignLikes db) (c : Campaign)
    (hc : findCampaign db i = some c) :
    (findCampaignLike db i uid = none →
      (toggleCampaignLike db (some uid) i).1 = .ok true (c.likesCount + 1) ∧
      campaignLikeRows (toggleCampaignLike db (some uid) i).2 i =
        campaignLikeRows db i + 1 ∧
      findCampaignLike (toggleCampaignLike db (some uid) i).2 i uid =
        some ⟨i, uid⟩) ∧
    (∀ l₀, findCampaignLike db i uid = some l₀ →
      (toggleCampaignLike db (some uid) i).1 = .ok false (c.likesCount - 1) ∧
      campaignLikeRows (toggleCampaignLike db (some uid) i).2 i + 1 =
        campaignLikeRows db i ∧
      findCampaignLike (toggleCampaignLike db (some uid) i).2 i uid = none) := by
  have hfind1 := find?_updateWhere_some (fun (x : Campaign) => x.id == i)
    (fun x => { x with likesCount := x.likesCount + 1 }) (fun a => rfl)
    db.campaigns c hc
  have hfind2 := find?_updateWhere_some (fun (x : Campaign) => x.id == i)
    (fun x => { x with likesCount := x.likesCount - 1 }) (fun a => rfl)
    db.campaigns c hc
  constructor
  · intro hnone
    have hforall : ∀ a ∈ db.campaignLikes,
        ¬ (a.campaignId == i && a.userId == uid) = true :=
      List.find?_eq_none.mp hnone
    rw [toggleCampaignLike_like_eq db uid i c hc hnone]
    refine ⟨?_, ?_, ?_⟩
    · show ToggleResult.ok true (campaignLikesCount _ i) = _
      simp only [campaignLikesCount, findCampaign]
      rw [hfind1]
      rfl
    · simp only [campaignLikeRows, List.filter_append, List.length_append]
      simp
    · simp only [findCampaignLike]
      rw [find?_append_of_forall_not _ _ _ hforall]
      simp
  · intro l₀ hl
    have hsome : (db.campaignLikes.find?
        (fun l => l.campaignId == i && l.userId == uid)).isSome := by
      rw [show db.campaignLikes.find?
          (fun l => l.campaignId == i && l.userId == uid) =
          findCampaignLike db i uid from rfl, hl]
      rfl
    rw [toggleCampaignLike_unlike_eq db uid i c l₀ hc hl]
    refine ⟨?_, ?_, ?_⟩
    · show ToggleResult.ok false (campaignLikesCount _ i) = _
      simp only [campaignLikesCount, findCampaign]
      rw [hfind2]
      rfl
    · simp only [campaignLikeRows]
      exact length_filter_eraseP
        (fun l => l.campaignId == i && l.userId == uid)
        (fun l => l.campaignId == i)
        (fun a ha => by
          simp only [Bool.and_eq_true] at ha
          exact ha.1)
        db.campaignLikes hsome
    · simp only [findCampaignLike]
      apply find?_eraseP_of_unique
      refine List.Pairwise.imp ?_ huc
      intro a b hab hq
      rcases hq with ⟨ha, hb⟩
      simp only [Bool.and_eq_true, beq_iff_eq] at ha hb
      exact hab ⟨ha.1.trans hb.1.symm, ha.2.trans hb.2.symm⟩

theorem projectToggle_cases (db : DB) (uid i : Nat)
    (hup : UniqueProjectLikes db) (p : Project)
    (hp : findProject db i = some p) :
    (findProjectLike db i uid = none →
      (toggleProjectLike db (some uid) i).1 = .ok true (p.likesCount + 1) ∧
      projectLikeRows (toggleProjectLike db (some uid) i).2 i =
        projectLikeRows db i + 1 ∧
      findProjectLike (toggleProjectLike db (some uid) i).2 i uid =
        some ⟨i, uid⟩) ∧
    (∀ l₀, findProjectLike db i uid = some l₀ →
      (toggleProjectLike db (some uid) i).1 = .ok false (p.likesCount - 1) ∧
      projectLikeRows (toggleProjectLike db (some uid) i).2 i + 1 =
        projectLikeRows db i ∧
      findProjectLike (toggleProjectLike db (some uid) i).2 i uid = none) := by
  have hfind1 := find?_updateWhere_some (fun (x : Project) => x.id == i)
    (fun x => { x with likesCount := x.likesCount + 1 }) (fun a => rfl)
    db.projects p hp
  have hfind2 := find?_updateWhere_some (fun (x : Project) => x.id == i)
    (fun x => { x with likesCount := x.likesCount - 1 }) (fun a => rfl)
    db.projects p hp
  constructor
  · intro hnone
    have hforall : ∀ a ∈ db.projectLikes,
        ¬ (a.projectId == i && a.userId == uid) = true :=
      List.find?_eq_none.mp hnone
    rw [toggleProjectLike_like_eq db uid i p hp hnone]
    refine ⟨?_, ?_, ?_⟩
    · show ToggleResult.ok true (projectLikesCount _ i) = _
      simp only [projectLikesCount, findProject]
      rw [hfind1]
      rfl
    · simp only [projectLikeRows, List.filter_append, List.length_append]
      simp
    · simp only [findProjectLike]
      rw [find?_append_of_forall_not _ _ _ hforall]
      simp
  · intro l₀ hl
    have hsome : (db.projectLikes.find?
        (fun l => l.projectId == i && l.userId == uid)).isSome := by
      rw [show db.projectLikes.find?
          (fun l => l.projectId == i && l.userId == uid) =
          findProjectLike db i uid from rfl, hl]
      rfl
    rw [toggleProjectLike_unlike_eq db uid i p l₀ hp hl]
    refine ⟨?_, ?_, ?_⟩
    · show ToggleResult.ok false (projectLikesCount _ i) = _
      simp only [projectLikesCount, findProject]
      rw [hfind2]
      rfl
    · simp only [projectLikeRows]
      exact length_filter_eraseP
        (fun l => l.projectId == i && l.userId == uid)
        (fun l => l.projectId == i)
        (fun a ha => by
          simp only [Bool.and_eq_true] at ha
          exact ha.1)
        db.projectLikes hsome
    · simp only [findProjectLike]
      apply find?_eraseP_of_unique
      refine List.Pairwise.imp ?_ hup
      intro a b hab hq
      rcases hq with ⟨ha, hb⟩
      simp only [Bool.and_eq_true, beq_iff_eq] at ha hb
      exact hab ⟨ha.1.trans hb.1.symm, ha.2.trans hb.2.symm⟩

/-- **C2**: ToggleLike, campaign or project, fails with 401 when no caller
identity is present and 404 when the entity does not exist; with an
authenticated caller on an existing entity it inserts the missing Like row
and increments the counter, answering liked=true with count+1, or deletes
the present Like row and decrements the counter, answering liked=false
with count-1.  Row uniqueness is the index the store enforces. -/
theorem toggleLike_functional_spec (db : DB) (uid i : Nat)
    (huc : UniqueCampaignLikes db) (hup : UniqueProjectLikes db) :
    (toggleCampaignLike db none i = (.unauthenticated, db)) ∧
    (findCampaign db i = none →
      toggleCampaignLike db (some uid) i = (.notFound, db)) ∧
    (∀ c, findCampaign db i = some c →
      (findCampaignLike db i uid = none →
        (toggleCampaignLike db (some uid) i).1 = .ok true (c.likesCount + 1) ∧
        campaignLikeRows (toggleCampaignLike db (some uid) i).2 i =
          campaignLikeRows db i + 1 ∧
        findCampaignLike (toggleCampaignLike db (some uid) i).2 i uid =
          some ⟨i, uid⟩) ∧
      (∀ l₀, findCampaignLike db i uid = some l₀ →
        (toggleCampaignLike db (some uid) i).1 = .ok false (c.likesCount - 1) ∧
        campaignLikeRows (toggleCampaignLike db (some uid) i).2 i + 1 =
          campaignLikeRows db i ∧
        findCampaignLike (toggleCampaignLike db (some uid) i).2 i uid = none)) ∧
    (toggleProjectLike db none i = (.unauthenticated, db)) ∧
    (findProject db i = none →
      toggleProjectLike db (some uid) i = (.notFound, db)) ∧
    (∀ p, findProject db i = some p →
      (findProjectLike db i uid = none →
        (toggleProjectLike db (some uid) i).1 = .ok true (p.likesCount + 1) ∧
        projectLikeRows (toggleProjectLike db (some uid) i).2 i =
          projectLikeRows db i + 1 ∧
        findProjectLike (toggleProjectLike db (some uid) i).2 i uid =
          some ⟨i, uid⟩) ∧
      (∀ l₀, findProjectLike db i uid = some l₀ →
        (toggleProjectLike db (some uid) i).1 = .ok false (p.likesCount - 1) ∧
        projectLikeRows (toggleProjectLike db (some uid) i).2 i + 1 =
          projectLikeRows db i ∧
        findProjectLike (toggleProjectLike db (some uid) i).2 i uid = none)) := by
  refine ⟨rfl, ?_, ?_, rfl, ?_, ?_⟩
  · intro h
    simp only [toggleCampaignLike, h]
  · intro c hc
    exact campaignToggle_cases db uid i huc c hc
  · intro h
    simp only [toggleProjectLike, h]
  · intro p hp
    exact projectToggle_cases db uid i hup p hp

/-- A small concrete store: one active campaign (id 1, creator 10, zero
likes), one project (id 1), one approved student (user 7), no likes, no
participations, no submissions. -/
def db0 : DB :=
  { campaigns := [{ id := 1, createdBy := 10, status := .active,
                    fundingTrail := true, likesCount := 0 }]
    projects := [{ id := 1, creatorId := 10, likesCount := 0 }]
    campaignLikes := []
    projectLikes := []
    students := [{ userId := 7, verificationStatus := .approved }]
    participations := []
    submissions := [] }

/-- Witness for C2 at the concrete store `db0`: liking the existing
campaign 1 and project 1 as authenticated user 7 answers liked=true with
count 1. -/
theorem toggleLike_functional_spec_witness :
    (toggleCampaignLike db0 (some 7) 1).1 = .ok true 1 ∧
    (toggleProjectLike db0 (some 7) 1).1 = .ok true 1 := by
  constructor
  · have h := (((toggleLike_functional_spec db0 7 1
      (by exact List.Pairwise.nil) (by exact List.Pairwise.nil)).2.2.1
      { id := 1, createdBy := 10, status := .active, fundingTrail := true,
        likesCount := 0 } (by decide)).1 (by decide)).1
    simpa using h
  · have h := (((toggleLike_functional_spec db0 7 1
      (by exact List.Pairwise.nil) (by exact List.Pairwise.nil)).2.2.2.2.2
      { id := 1, creatorId := 10, likesCount := 0 } (by decide)).1 (by decide)).1
    simpa using h

/-- Witness for C1 at the concrete store `db0`: the hypotheses hold there
and the theorem applies. -/
theorem toggleLike_mirror_and_involutive_witness :
    Consistent (runToggles db0
      [.campaign (some 7) 1, .campaign (some 8) 1, .project (some 7) 1,
       .campaign none 1, .campaign (some 7) 2]) ∧
    (toggleCampaignLike (toggleCampaignLike db0 (some 7) 1).2 (some 7) 1).2 = db0 ∧
    (toggleProjectLike (toggleProjectLike db0 (some 7) 1).2 (some 7) 1).2 = db0 :=
  toggleLike_mirror_and_involutive db0
    [.campaign (some 7) 1, .campaign (some 8) 1, .project (some 7) 1,
     .campaign none 1, .campaign (some 7) 2]
    7 1 7 1
    { id := 1, createdBy := 10, status := .active, fundingTrail := true,
      likesCount := 0 }
    { id := 1, creatorId := 10, likesCount := 0 }
    (by constructor <;> intro x hx <;> simp [db0] at hx <;>
        simp [hx, campaignLikeRows, projectLikeRows, db0])
    (by decide) (by decide) (by decide) (by decide)

/-! ## Claim C3: the Apply gate -/

/-- **C3**: on a valid request body, Apply fails 403 unless the caller is a
verified-approved student, 404 if the campaign is missing, 400 invalid
state unless the campaign is active with fundingTrail on, 400 conflict if
a participation already exists for (campaignId, userId); on success it
appends exactly one Participation with status pending, submissionStatus
not_submitted and submittedAt now, leaving everything else unchanged. -/
theorem apply_gate_spec (db : DB) (now : Int) (uid : Nat) (role : UserRole)
    (b : ApplyReq) (newId : Nat) (hv : applyBodyValid b = true) :
    (role ≠ .student →
      participateInCampaign db now uid role b newId = (.forbiddenRole, db)) ∧
    (role = .student →
      db.students.find? (fun st => st.userId == uid) = none →
      participateInCampaign db now uid role b newId = (.forbiddenNoProfile, db)) ∧
    (∀ st, role = .student →
      db.students.find? (fun st => st.userId == uid) = some st →
      st.verificationStatus ≠ .approved →
      participateInCampaign db now uid role b newId = (.forbiddenUnverified, db)) ∧
    (∀ st, role = .student →
      db.students.find? (fun st => st.userId == uid) = some st →
      st.verificationStatus = .approved →
      findCampaign db b.campaignId = none →
      participateInCampaign db now uid role b newId = (.notFound, db)) ∧
    (∀ st c, role = .student →
      db.students.find? (fun st => st.userId == uid) = some st →
      st.verificationStatus = .approved →
      findCampaign db b.campaignId = some c →
      c.status ≠ .active →
      participateInCampaign db now uid role b newId = (.notActive, db)) ∧
    (∀ st c, role = .student →
      db.students.find? (fun st => st.userId == uid) = some st →
      st.verificationStatus = .approved →
      findCampaign db b.campaignId = some c →
      c.status = .active → c.fundingTrail = false →
      participateInCampaign db now uid role b newId = (.noFundingTrail, db)) ∧
    (∀ st c l, role = .student →
      db.students.find? (fun st => st.userId == uid) = some st →
      st.verificationStatus = .approved →
      findCampaign db b.campaignId = some c →
      c.status = .active → c.fundingTrail = true →
      db.participations.find?
        (fun p => p.campaignId == b.campaignId && p.userId == uid) = some l →
      participateInCampaign db now uid role b newId = (.alreadyParticipated, db)) ∧
    (∀ st c, role = .student →
      db.students.find? (fun st => st.userId == uid) = some st →
      st.verificationStatus = .approved →
      findCampaign db b.campaignId = some c →
      c.status = .active → c.fundingTrail = true →
      db.participations.find?
        (fun p => p.campaignId == b.campaignId && p.userId == uid) = none →
      ∃ p', participateInCampaign db now uid role b newId =
          (.created p', { db with participations := db.participations ++ [p'] }) ∧
        p'.status = .pending ∧ p'.submissionStatus = .notSubmitted ∧
        p'.submittedAt = now ∧ p'.campaignId = b.campaignId ∧ p'.userId = uid) := by
  refine ⟨?_, ?_, ?_, ?_, ?_, ?_, ?_, ?_⟩
  · intro hrole
    simp [participateInCampaign, hv, hrole]
  · intro hrole hst
    simp [participateInCampaign, hv, hrole, hst]
  · intro st hrole hst hver
    simp [participateInCampaign, hv, hrole, hst, hver]
  · intro st hrole hst hver hc
    simp [participateInCampaign, hv, hrole, hst, hver, hc]
  · intro st c hrole hst hver hc hact
    simp [participateInCampaign, hv, hrole, hst, hver, hc, hact]
  · intro st c hrole hst hver hc hact hft
    simp [participateInCampaign, hv, hrole, hst, hver, hc, hact, hft]
  · intro st c l hrole hst hver hc hact hft hl
    simp [participateInCampaign, hv, hrole, hst, hver, hc, hact, hft, hl]
  · intro st c hrole hst hver hc hact hft hnone
    refine ⟨⟨newId, b.campaignId, uid, trimChars b.motivation,
      trimChars b.experience, b.portfolio.map trimChars,
      b.additionalInfo.map trimChars, .pending, .notSubmitted, now,
      none, none, none⟩, ?_, rfl, rfl, rfl, rfl, rfl⟩
    simp [participateInCampaign, hv, hrole, hst, hver, hc, hact, hft, hnone]

/-- A valid Apply request body for campaign 1. -/
def applyReq0 : ApplyReq :=
  { campaignId := 1
    motivation := "I want to take part in this"
    experience := "I have shipped projects before" }

/-- Witness for C3 at `db0`: the verified student 7 applying to the active
campaign 1 succeeds and the created participation is pending /
not_submitted / stamped with now. -/
theorem apply_gate_spec_witness :
    ∃ p', participateInCampaign db0 5 7 .student applyReq0 1 =
        (.created p', { db0 with participations := db0.participations ++ [p'] }) ∧
      p'.status = .pending ∧ p'.submissionStatus = .notSubmitted ∧
      p'.submittedAt = 5 ∧ p'.campaignId = applyReq0.campaignId ∧
      p'.userId = 7 :=
  (apply_gate_spec db0 5 7 .student applyReq0 1 (by decide)).2.2.2.2.2.2.2
    { userId := 7, verificationStatus := .approved }
    { id := 1, createdBy := 10, status := .active, fundingTrail := true,
      likesCount := 0 }
    rfl (by decide) rfl (by decide) rfl rfl (by decide)

/-! ## Claims C4, C5, C10: the submission window -/

theorem find?_append_right_none {α : Type} (q : α → Bool) (l₁ l₂ : List α)
    (h : l₂.find? q = none) :
    (l₁ ++ l₂).find? q = l₁.find? q := by
  induction l₁ with
  | nil => simpa using h
  | cons x xs ih =>
    by_cases hx : q x = true
    · rw [List.cons_append, List.find?_cons_of_pos _ hx,
        List.find?_cons_of_pos _ hx]
    · rw [List.cons_append, List.find?_cons_of_neg _ hx,
        List.find?_cons_of_neg _ hx]
      exact ih

theorem find?_of_mem_unique {α : Type} (q : α → Bool) :
    ∀ l : List α, l.Pairwise (fun a b => ¬(q a = true ∧ q b = true)) →
      ∀ s ∈ l, q s = true → l.find? q = some s := by
  intro l
  induction l with
  | nil => intro _ s hs; simp at hs
  | cons x xs ih =>
    intro hp s hs hq
    rcases List.pairwise_cons.mp hp with ⟨hhead, htail⟩
    rcases List.mem_cons.mp hs with rfl | hs
    · rw [List.find?_cons_of_pos _ hq]
    · have hx : ¬ q x = true := fun hqx => hhead s hs ⟨hqx, hq⟩
      rw [List.find?_cons_of_neg _ hx]
      exact ih htail s hs hq

theorem find?_updateWhere_congr {α : Type} (p q : α → Bool) (f : α → α)
    (hf : ∀ a, q (f a) = q a) :
    ∀ l : List α, (updateWhere p f l).find? q =
      (l.find? q).map (fun a => if p a then f a else a) := by
  intro l
  induction l with
  | nil => rfl
  | cons x xs ih =>
    by_cases hq : q x = true
    · have hq' : q (if p x then f x else x) = true := by
        by_cases hp : p x = true
        · simpa [hp, hf] using hq
        · simpa [hp] using hq
      rw [show updateWhere p f (x :: xs) =
          (if p x then f x else x) :: updateWhere p f xs from rfl,
        List.find?_cons_of_pos _ hq', List.find?_cons_of_pos _ hq]
      rfl
    · have hq' : ¬ q (if p x then f x else x) = true := by
        by_cases hp : p x = true
        · simpa [hp, hf] using hq
        · simpa [hp] using hq
      rw [show updateWhere p f (x :: xs) =
          (if p x then f x else x) :: updateWhere p f xs from rfl,
        List.find?_cons_of_neg _ hq', List.find?_cons_of_neg _ hq]
      exact ih

theorem eq_of_mem_pairwise_key {α : Type} (k : α → Nat) :
    ∀ l : List α, l.Pairwise (fun a b => k a ≠ k b) →
      ∀ a ∈ l, ∀ b ∈ l, k a = k b → a = b := by
  intro l
  induction l with
  | nil => intro _ a ha; simp at ha
  | cons x xs ih =>
    intro hp a ha b hb hk
    rcases List.pairwise_cons.mp hp with ⟨hhead, htail⟩
    rcases List.mem_cons.mp ha with ha1 | ha1
    · rcases List.mem_cons.mp hb with hb1 | hb1
      · rw [ha1, hb1]
      · subst ha1
        exact absurd hk (hhead b hb1)
    · rcases List.mem_cons.mp hb with hb1 | hb1
      · subst hb1
        exact absurd hk.symm (hhead a ha1)
      · exact ih htail a ha1 b hb1 hk

/-- At most one Submission row per participation: the UNIQUE
(participation_id) constraint of campaign_submissions. -/
@[reducible] def AtMostOneSubmission (db : DB) : Prop :=
  db.submissions.Pairwise (fun a b => a.participationId ≠ b.participationId)

/-- Distinct submission primary keys (SERIAL id). -/
@[reducible] def UniqueSubmissionIds (db : DB) : Prop :=
  db.submissions.Pairwise (fun a b => a.id ≠ b.id)

/-- **C4**: the one-submission-per-participation invariant is preserved by
Submit; Submit answers 403 when no approved participation exists for
(campaignId, userId); and a second Submit against a participation that
already has a Submission answers 400 conflict leaving the store - and so
the existing Submission - unchanged. -/
theorem submission_unique_and_conflict (db : DB) (now : Int) (uid : Nat)
    (role : UserRole) (cid : Nat) (b : SubmitReq) (ve : Bool) (newId : Nat)
    (h : AtMostOneSubmission db) :
    AtMostOneSubmission (submitProject db now uid role cid b ve newId).2 ∧
    (∀ c, ve = false → role = .student → findCampaign db cid = some c →
      beforeStart now c = false → afterEnd now c = false →
      db.participations.find?
        (fun p => p.campaignId == cid && p.userId == uid &&
                  p.status == PartStatus.approved) = none →
      submitProject db now uid role cid b ve newId =
        (.forbiddenNotApproved, db)) ∧
    (∀ c part s0, ve = false → role = .student →
      findCampaign db cid = some c →
      beforeStart now c = false → afterEnd now c = false →
      db.participations.find?
        (fun p => p.campaignId == cid && p.userId == uid &&
                  p.status == PartStatus.approved) = some part →
      db.submissions.find? (fun s => s.participationId == part.id) = some s0 →
      submitProject db now uid role cid b ve newId = (.alreadySubmitted, db)) := by
  refine ⟨?_, ?_, ?_⟩
  · by_cases hve : ve = true
    · simpa [submitProject, hve] using h
    · have hve' : ve = false := by simpa using hve
      by_cases hrole : role = .student
      · cases hc : findCampaign db cid with
        | none => simpa [submitProject, hve', hrole, hc] using h
        | some c =>
          by_cases hstart : beforeStart now c = true
          · simpa [submitProject, hve', hrole, hc, hstart] using h
          · have hstart' : beforeStart now c = false := by simpa using hstart
            by_cases hend : afterEnd now c = true
            · simpa [submitProject, hve', hrole, hc, hstart', hend] using h
            · have hend' : afterEnd now c = false := by simpa using hend
              cases hpart : db.participations.find?
                  (fun p => p.campaignId == cid && p.userId == uid &&
                            p.status == PartStatus.approved) with
              | none =>
                simpa [submitProject, hve', hrole, hc, hstart', hend', hpart]
                  using h
              | some part =>
                cases hsub : db.submissions.find?
                    (fun s => s.participationId == part.id) with
                | some s0 =>
                  simpa [submitProject, hve', hrole, hc, hstart', hend',
                    hpart, hsub] using h
                | none =>
                  simp only [submitProject, hve', hrole, hc, hstart', hend',
                    hpart, hsub]
                  refine List.pairwise_append.mpr ⟨h, ?_, ?_⟩
                  · exact List.pairwise_singleton _ _
                  · intro a ha b hb
                    have hbna := List.find?_eq_none.mp hsub a ha
                    simp only [List.mem_singleton] at hb
                    subst hb
                    simp only [beq_iff_eq] at hbna
                    simpa using hbna
      · simpa [submitProject, hve', hrole] using h
  · intro c hve hrole hc hstart hend hpart
    simp [submitProject, hve, hrole, hc, hstart, hend, hpart]
  · intro c part s0 hve hrole hc hstart hend hpart hsub
    simp [submitProject, hve, hrole, hc, hstart, hend, hpart, hsub]

/-- A draft campaign with the funding trail off and no window dates. -/
def camp10 : Campaign :=
  { id := 1, createdBy := 10, status := .draft, fundingTrail := false,
    likesCount := 0 }

/-- An approved participation of user 7 in campaign 1. -/
def part10 : Participation :=
  { id := 3, campaignId := 1, userId := 7,
    motivation := "motivated enough", experience := "experienced enough",
    portfolio := none, additionalInfo := none, status := .approved,
    submissionStatus := .notSubmitted, submittedAt := 0,
    reviewedAt := some 1, reviewedBy := some 10, reviewNotes := none }

/-- Concrete store for the submission-side witnesses: campaign 1 is draft
with fundingTrail off and no window dates; user 7 is an approved student
holding an approved participation (id 3) in campaign 1; no submissions. -/
def db10 : DB :=
  { campaigns := [camp10]
    projects := []
    campaignLikes := []
    projectLikes := []
    students := [{ userId := 7, verificationStatus := .approved }]
    participations := [part10]
    submissions := [] }

/-- A submission request body. -/
def submitReq0 : SubmitReq :=
  { projectTitle := "My project"
    projectDescription := "A sufficiently long description"
    projectScreenshots := ["https://img.example/shot1.png"] }

/-- Witness for C4 at `db10`: user 7 submits once (the invariant is kept),
user 9 without approved participation is refused 403, and a second submit
by user 7 answers the conflict leaving the store unchanged. -/
theorem submission_unique_and_conflict_witness :
    AtMostOneSubmission (submitProject db10 5 7 .student 1 submitReq0 false 2).2 ∧
    submitProject db10 5 9 .student 1 submitReq0 false 2 =
      (.forbiddenNotApproved, db10) ∧
    submitProject (submitProject db10 5 7 .student 1 submitReq0 false 2).2
        6 7 .student 1 submitReq0 false 3 =
      (.alreadySubmitted, (submitProject db10 5 7 .student 1 submitReq0 false 2).2) := by
  refine ⟨(submission_unique_and_conflict db10 5 7 .student 1 submitReq0 false 2
    (by decide)).1, ?_, ?_⟩
  · exact (submission_unique_and_conflict db10 5 9 .student 1 submitReq0 false 2
      (by decide)).2.1 camp10
      (by decide) rfl (by decide) (by decide) (by decide) (by decide)
  · exact (submission_unique_and_conflict
      (submitProject db10 5 7 .student 1 submitReq0 false 2).2
      6 7 .student 1 submitReq0 false 3 (by decide)).2.2 camp10
      { id := 3, campaignId := 1, userId := 7,
        motivation := "motivated enough", experience := "experienced enough",
        portfolio := none, additionalInfo := none, status := .approved,
        submissionStatus := .status .submitted, submittedAt := 0,
        reviewedAt := some 1, reviewedBy := some 10, reviewNotes := none }
      { id := 2, campaignId := 1, userId := 7, participationId := 3,
        projectTitle := "My project",
        projectDescription := "A sufficiently long description",
        projectScreenshots := ["https://img.example/shot1.png"],
        projectLinks := {}, pitchDeckUrl := none, status := .submitted,
        submissionDate := 5, score := none, grade := none, feedback := none,
        position := none, prizeAmount := none, gradedBy := none,
        gradedAt := none }
      (by decide) rfl (by decide) (by decide) (by decide) (by decide) (by decide)

/-- **C5**: with the campaign loaded, Submit strictly before a set
submissionStartDate answers 400 window-not-open with the store unchanged
(no Submission row is created); strictly after a set submissionEndDate -
when the start gate did not fire first - it answers 400 window-closed with
the store unchanged; and at either exact boundary of a well-formed window
neither window error fires: the boundary is inclusive at both edges. -/
theorem submission_window_spec (db : DB) (now : Int) (uid : Nat)
    (cid : Nat) (b : SubmitReq) (newId : Nat) (c : Campaign)
    (hc : findCampaign db cid = some c) :
    (∀ s, c.submissionStartDate = some s → now < s →
      submitProject db now uid .student cid b false newId =
        (.windowNotOpen, db)) ∧
    (∀ e, c.submissionEndDate = some e → e < now →
      beforeStart now c = false →
      submitProject db now uid .student cid b false newId =
        (.windowClosed, db)) ∧
    (∀ s e, c.submissionStartDate = some s → c.submissionEndDate = some e →
      s ≤ e → (now = s ∨ now = e) →
      (submitProject db now uid .student cid b false newId).1 ≠
        .windowNotOpen ∧
      (submitProject db now uid .student cid b false newId).1 ≠
        .windowClosed) := by
  refine ⟨?_, ?_, ?_⟩
  · intro s hs hlt
    have hbs : beforeStart now c = true := by
      simp [beforeStart, hs, hlt]
    simp [submitProject, hc, hbs]
  · intro e he hgt hbs
    have hae : afterEnd now c = true := by
      simp [afterEnd, he, hgt]
    simp [submitProject, hc, hbs, hae]
  · intro s e hs he hse hnow
    have hsle : s ≤ now := by
      rcases hnow with rfl | rfl
      · exact le_refl now
      · exact hse
    have hnle : now ≤ e := by
      rcases hnow with rfl | rfl
      · exact hse
      · exact le_refl now
    have hbs : beforeStart now c = false := by
      simp only [beforeStart, hs, decide_eq_false_iff_not]
      omega
    have hae : afterEnd now c = false := by
      simp only [afterEnd, he, decide_eq_false_iff_not]
      omega
    simp only [submitProject, hc, hbs]
    cases hp : db.participations.find?
        (fun p => p.campaignId == cid && p.userId == uid &&
                  p.status == PartStatus.approved) with
    | none => simp [hp, hae]
    | some part =>
      cases hsub : db.submissions.find?
          (fun t => t.participationId == part.id) with
      | some s0 => simp [hp, hsub, hae]
      | none => simp [hp, hsub, hae]

/-- Concrete store for the window witness: campaign 2 has the submission
window [10, 20]. -/
def dbWin : DB :=
  { campaigns := [{ id := 2, createdBy := 10, status := .active,
                    fundingTrail := true, likesCount := 0,
                    submissionStartDate := some 10,
                    submissionEndDate := some 20 }]
    projects := []
    campaignLikes := []
    projectLikes := []
    students := []
    participations := []
    submissions := [] }

/-- Witness for C5 at `dbWin`: at time 3 the call fails window-not-open; at
time 25 it fails window-closed; at the exact boundaries 10 and 20 neither
window error fires. -/
theorem submission_window_spec_witness :
    submitProject dbWin 3 7 .student 2 submitReq0 false 9 =
      (.windowNotOpen, dbWin) ∧
    submitProject dbWin 25 7 .student 2 submitReq0 false 9 =
      (.windowClosed, dbWin) ∧
    (submitProject dbWin 10 7 .student 2 submitReq0 false 9).1 ≠
      .windowNotOpen ∧
    (submitProject dbWin 10 7 .student 2 submitReq0 false 9).1 ≠
      .windowClosed ∧
    (submitProject dbWin 20 7 .student 2 submitReq0 false 9).1 ≠
      .windowNotOpen ∧
    (submitProject dbWin 20 7 .student 2 submitReq0 false 9).1 ≠
      .windowClosed := by
  have cW : Campaign :=
    { id := 2, createdBy := 10, status := .active, fundingTrail := true,
      likesCount := 0, submissionStartDate := some 10,
      submissionEndDate := some 20 }
  refine ⟨?_, ?_, ?_, ?_, ?_, ?_⟩
  · exact (submission_window_spec dbWin 3 7 2 submitReq0 9
      { id := 2, createdBy := 10, status := .active, fundingTrail := true,
        likesCount := 0, submissionStartDate := some 10,
        submissionEndDate := some 20 } rfl).1 10 rfl (by decide)
  · exact (submission_window_spec dbWin 25 7 2 submitReq0 9
      { id := 2, createdBy := 10, status := .active, fundingTrail := true,
        likesCount := 0, submissionStartDate := some 10,
        submissionEndDate := some 20 } rfl).2.1 20 rfl (by decide) (by decide)
  · exact ((submission_window_spec dbWin 10 7 2 submitReq0 9
      { id := 2, createdBy := 10, status := .active, fundingTrail := true,
        likesCount := 0, submissionStartDate := some 10,
        submissionEndDate := some 20 } rfl).2.2 10 20 rfl rfl (by decide)
        (Or.inl rfl)).1
  · exact ((submission_window_spec dbWin 10 7 2 submitReq0 9
      { id := 2, createdBy := 10, status := .active, fundingTrail := true,
        likesCount := 0, submissionStartDate := some 10,
        submissionEndDate := some 20 } rfl).2.2 10 20 rfl rfl (by decide)
        (Or.inl rfl)).2
  · exact ((submission_window_spec dbWin 20 7 2 submitReq0 9
      { id := 2, createdBy := 10, status := .active, fundingTrail := true,
        likesCount := 0, submissionStartDate := some 10,
        submissionEndDate := some 20 } rfl).2.2 10 20 rfl rfl (by decide)
        (Or.inr rfl)).1
  · exact ((submission_window_spec dbWin 20 7 2 submitReq0 9
      { id := 2, createdBy := 10, status := .active, fundingTrail := true,
        likesCount := 0, submissionStartDate := some 10,
        submissionEndDate := some 20 } rfl).2.2 10 20 rfl rfl (by decide)
        (Or.inr rfl)).2

/-- **C10**: Submit never consults Campaign.status or fundingTrail: with
the window gates passing, an approved participation and no prior
submission, it succeeds whatever the campaign's status and even with
fundingTrail off - while Apply on the very same campaign is refused with
the invalid-state errors (not active, or no funding trail). -/
theorem submit_ignores_campaign_state (db : DB) (now : Int)
    (uid cid newId nid : Nat) (b : SubmitReq) (c : Campaign)
    (part : Participation) (st : Student) (b2 : ApplyReq)
    (hc : findCampaign db cid = some c)
    (hstart : beforeStart now c = false) (hend : afterEnd now c = false)
    (hpart : db.participations.find?
      (fun p => p.campaignId == cid && p.userId == uid &&
                p.status == PartStatus.approved) = some part)
    (hnosub : db.submissions.find?
      (fun s => s.participationId == part.id) = none)
    (hst : db.students.find? (fun q => q.userId == uid) = some st)
    (hstv : st.verificationStatus = .approved)
    (hb2 : applyBodyValid b2 = true) (hb2c : b2.campaignId = cid)
    (hft : c.fundingTrail = false) :
    (∃ s', submitProject db now uid .student cid b false newId =
      (.created s', { db with
        submissions := db.submissions ++ [s']
        participations := updateWhere (fun q => q.id == part.id)
          (fun q => { q with submissionStatus := .status .submitted })
          db.participations }) ∧ s'.status = .submitted) ∧
    (participateInCampaign db now uid .student b2 nid = (.notActive, db) ∨
     participateInCampaign db now uid .student b2 nid = (.noFundingTrail, db)) := by
  constructor
  · refine ⟨⟨newId, cid, uid, part.id, b.projectTitle, b.projectDescription,
      b.projectScreenshots, b.projectLinks, b.pitchDeckUrl, .submitted, now,
      none, none, none, none, none, none, none⟩, ?_, rfl⟩
    simp [submitProject, hc, hstart, hend, hpart, hnosub]
  · by_cases hact : c.status = .active
    · right
      simp [participateInCampaign, hb2, hst, hstv, hb2c, hc, hact, hft]
    · left
      simp [participateInCampaign, hb2, hst, hstv, hb2c, hc, hact]

/-- Witness for C10 at `db10`: campaign 1 is draft with fundingTrail off,
yet user 7's submit succeeds, while the same user's apply to the same
campaign is refused as not active. -/
theorem submit_ignores_campaign_state_witness :
    (∃ s', submitProject db10 5 7 .student 1 submitReq0 false 2 =
      (.created s', { db10 with
        submissions := db10.submissions ++ [s']
        participations := updateWhere (fun q => q.id == 3)
          (fun q => { q with submissionStatus := .status .submitted })
          db10.participations }) ∧ s'.status = .submitted) ∧
    (participateInCampaign db10 5 7 .student applyReq0 4 = (.notActive, db10) ∨
     participateInCampaign db10 5 7 .student applyReq0 4 =
       (.noFundingTrail, db10)) :=
  submit_ignores_campaign_state db10 5 7 1 2 4 submitReq0 camp10 part10
    { userId := 7, verificationStatus := .approved }
    applyReq0 (by decide) (by decide) (by decide) (by decide) (by decide)
    (by decide) rfl (by decide) rfl (by decide)

/-! ## Claim C6: submissionStatus one-way propagation -/

/-- The Submission row of a participation, when one exists (unique by the
participation_id constraint). -/
def findSubmissionFor (db : DB) (pid : Nat) : Option Submission :=
  db.submissions.find? (fun s => s.participationId == pid)

/-- The value the `update_participation_submission_status` trigger keeps on
a participation: the status of its Submission row, or not_submitted when
none exists. -/
def mirrorStatus (db : DB) (pid : Nat) : PartSubStatus :=
  match findSubmissionFor db pid with
  | none => .notSubmitted
  | some s => .status s.status

/-- Every participation's submissionStatus equals the mirror of its
Submission row. -/
@[reducible] def SubStatusSync (db : DB) : Prop :=
  ∀ p ∈ db.participations, p.submissionStatus = mirrorStatus db p.id

theorem submitProject_sync (db : DB) (now : Int) (uid : Nat)
    (role : UserRole) (cid : Nat) (b : SubmitReq) (ve : Bool) (newId : Nat)
    (hsync : SubStatusSync db) :
    SubStatusSync (submitProject db now uid role cid b ve newId).2 := by
  by_cases hve : ve = true
  · simpa [submitProject, hve] using hsync
  · have hve' : ve = false := by simpa using hve
    by_cases hrole : role = .student
    · cases hc : findCampaign db cid with
      | none => simpa [submitProject, hve', hrole, hc] using hsync
      | some c =>
        by_cases hstart : beforeStart now c = true
        · simpa [submitProject, hve', hrole, hc, hstart] using hsync
        · have hstart' : beforeStart now c = false := by simpa using hstart
          by_cases hend : afterEnd now c = true
          · simpa [submitProject, hve', hrole, hc, hstart', hend] using hsync
          · have hend' : afterEnd now c = false := by simpa using hend
            cases hpart : db.participations.find?
                (fun p => p.campaignId == cid && p.userId == uid &&
                          p.status == PartStatus.approved) with
            | none =>
              simpa [submitProject, hve', hrole, hc, hstart', hend', hpart]
                using hsync
            | some part =>
              cases hsub : db.submissions.find?
                  (fun s => s.participationId == part.id) with
              | some s0 =>
                simpa [submitProject, hve', hrole, hc, hstart', hend',
                  hpart, hsub] using hsync
              | none =>
                simp [submitProject, hve', hrole, hc, hstart', hend',
                  hpart, hsub]
                intro p' hmem
                obtain ⟨p, hpm, hval⟩ := mem_updateWhere _ _ _ p' hmem
                by_cases hk : (p.id == part.id) = true
                · rw [if_pos hk] at hval
                  subst hval
                  have hid : p.id = part.id := by simpa using hk
                  show PartSubStatus.status .submitted = mirrorStatus _ p.id
                  simp only [mirrorStatus, findSubmissionFor, hid]
                  rw [find?_append_of_forall_not _ _ _
                    (List.find?_eq_none.mp hsub)]
                  simp
                · rw [if_neg hk] at hval
                  subst hval
                  have hid : ¬ p'.id = part.id := by simpa using hk
                  show p'.submissionStatus = mirrorStatus _ p'.id
                  have hold := hsync p' hpm
                  simp only [mirrorStatus, findSubmissionFor] at hold ⊢
                  rw [find?_append_right_none]
                  · exact hold
                  · have : ((part.id == p'.id) : Bool) = false := by
                      simp
                      exact fun hcontra => hid hcontra.symm
                    simp [List.find?_cons, this]
    · simpa [submitProject, hve', hrole] using hsync

theorem gradeSubmission_sync (db : DB) (now : Int) (uid : Nat)
    (role : UserRole) (sid : Nat) (bg : GradeReq)
    (hsync : SubStatusSync db) (h1 : AtMostOneSubmission db)
    (h2 : UniqueSubmissionIds db) :
    SubStatusSync (gradeSubmission db now uid role sid bg).2 := by
  by_cases hgv : gradeBodyValid bg = true
  · cases hs : db.submissions.find? (fun s => s.id == sid) with
    | none => simpa [gradeSubmission, hgv, hs] using hsync
    | some s =>
      cases hc : findCampaign db s.campaignId with
      | none => simpa [gradeSubmission, hgv, hs, hc] using hsync
      | some c =>
        by_cases hauth : c.createdBy ≠ uid ∧ role ≠ .admin
        · simpa [gradeSubmission, hgv, hs, hc, hauth] using hsync
        · have hsid : (s.id == sid) = true := by
            have := List.find?_some hs
            simpa using this
          have hsmem : s ∈ db.submissions := List.mem_of_find?_eq_some hs
          have hqs : db.submissions.find?
              (fun t => t.participationId == s.participationId) = some s := by
            apply find?_of_mem_unique _ _ _ s hsmem (by simp)
            refine List.Pairwise.imp ?_ h1
            intro a b hab hq
            rcases hq with ⟨ha, hb⟩
            simp only [beq_iff_eq] at ha hb
            exact hab (ha.trans hb.symm)
          simp [gradeSubmission, hgv, hs, hc, hauth]
          intro p' hmem
          obtain ⟨p, hpm, hval⟩ := mem_updateWhere _ _ _ p' hmem
          by_cases hk : (p.id == s.participationId) = true
          · rw [if_pos hk] at hval
            subst hval
            have hid : p.id = s.participationId := by simpa using hk
            show PartSubStatus.status (gradeStatusOf bg) = mirrorStatus _ p.id
            simp only [mirrorStatus, findSubmissionFor, hid]
            rw [find?_updateWhere_congr (fun t => t.id == sid)
              (fun t => t.participationId == s.participationId)
              (applyGrade now uid bg) (fun a => rfl) db.submissions, hqs]
            have hseq : s.id = sid := by simpa using hsid
            simp [hseq, applyGrade]
          · rw [if_neg hk] at hval
            subst hval
            have hid : ¬ p'.id = s.participationId := by simpa using hk
            have hold := hsync p' hpm
            show p'.submissionStatus = mirrorStatus _ p'.id
            simp only [mirrorStatus, findSubmissionFor] at hold ⊢
            rw [find?_updateWhere_congr (fun t => t.id == sid)
              (fun t => t.participationId == p'.id)
              (applyGrade now uid bg) (fun a => rfl) db.submissions]
            cases ht : db.submissions.find?
                (fun t => t.participationId == p'.id) with
            | none =>
              rw [ht] at hold
              simpa using hold
            | some t =>
              rw [ht] at hold
              have htmem : t ∈ db.submissions := List.mem_of_find?_eq_some ht
              have htp : (t.participationId == p'.id) = true := by
                have := List.find?_some ht
                simpa using this
              have htid : ¬ (t.id == sid) = true := by
                intro hcontra
                have hts : t = s := by
                  apply eq_of_mem_pairwise_key Submission.id _ h2 t htmem
                    s hsmem
                  have h1' : t.id = sid := by simpa using hcontra
                  have h2' : s.id = sid := by simpa using hsid
                  rw [h1', h2']
                apply hid
                have := htp
                rw [hts] at this
                have hsp : s.participationId = p'.id := by simpa using this
                exact hsp.symm
              have htne : ¬ t.id = sid := by simpa using htid
              simp [htne]
              exact hold
  · simpa [gradeSubmission, hgv] using hsync

theorem reviewParticipation_sync (db : DB) (now : Int) (uid : Nat)
    (role : UserRole) (pid : Nat) (d : ReviewDecision)
    (notes : Option String) (hsync : SubStatusSync db) :
    SubStatusSync (reviewParticipation db now uid role pid d notes).2 := by
  by_cases hval : reviewBodyValid notes = true
  · cases hp : db.participations.find? (fun q => q.id == pid) with
    | none => simpa [reviewParticipation, hval, hp] using hsync
    | some p =>
      cases hc : findCampaign db p.campaignId with
      | none => simpa [reviewParticipation, hval, hp, hc] using hsync
      | some c =>
        by_cases hauth : c.createdBy ≠ uid ∧ role ≠ .admin
        · simpa [reviewParticipation, hval, hp, hc, hauth] using hsync
        · simp [reviewParticipation, hval, hp, hc, hauth]
          intro p' hmem
          obtain ⟨q, hqm, hqval⟩ := mem_updateWhere _ _ _ p' hmem
          have hold := hsync q hqm
          by_cases hk : (q.id == pid) = true
          · rw [if_pos hk] at hqval
            subst hqval
            show (applyReview now uid d notes q).submissionStatus =
              mirrorStatus _ (applyReview now uid d notes q).id
            have hsub : (applyReview now uid d notes q).submissionStatus =
                q.submissionStatus := rfl
            have hidq : (applyReview now uid d notes q).id = q.id := rfl
            rw [hsub, hidq]
            exact hold
          · rw [if_neg hk] at hqval
            subst hqval
            exact hold
  · simpa [reviewParticipation, hval] using hsync

/-- **C6**: `Participation.submissionStatus` is maintained as a pure mirror
of the participation's Submission row (not_submitted when none exists):
the property is preserved by Submit (trigger INSERT arm), by Grade
(trigger UPDATE arm, propagating the grader-supplied or defaulted status),
and Review - the only other operation updating participations - never
touches it. -/
theorem submission_status_mirror (db : DB) (now now2 now3 : Int)
    (uid uid2 uid3 : Nat) (role role2 role3 : UserRole)
    (cid sid pid newId : Nat) (b : SubmitReq) (ve : Bool) (bg : GradeReq)
    (d : ReviewDecision) (notes : Option String)
    (hsync : SubStatusSync db) (h1 : AtMostOneSubmission db)
    (h2 : UniqueSubmissionIds db) :
    SubStatusSync (submitProject db now uid role cid b ve newId).2 ∧
    SubStatusSync (gradeSubmission db now2 uid2 role2 sid bg).2 ∧
    SubStatusSync (reviewParticipation db now3 uid3 role3 pid d notes).2 :=
  ⟨submitProject_sync db now uid role cid b ve newId hsync,
   gradeSubmission_sync db now2 uid2 role2 sid bg hsync h1 h2,
   reviewParticipation_sync db now3 uid3 role3 pid d notes hsync⟩

/-- A valid grading request body. -/
def gradeReq0 : GradeReq := { score := 90, grade := "A" }

/-- Witness for C6 at `db10`: the mirror property survives a submit, a
grade call and a review on the concrete store. -/
theorem submission_status_mirror_witness :
    SubStatusSync (submitProject db10 5 7 .student 1 submitReq0 false 2).2 ∧
    SubStatusSync (gradeSubmission db10 6 10 .admin 9 gradeReq0).2 ∧
    SubStatusSync (reviewParticipation db10 7 10 .admin 3 .approved none).2 :=
  submission_status_mirror db10 5 6 7 7 10 10 .student .admin .admin 1 9 3 2
    submitReq0 false gradeReq0 .approved none (by decide) (by decide)
    (by decide)

/-! ## Claim C7: grade validation -/

/-- **C7**: a Grade request with a score outside [0,100], a grade outside
the letter list, a supplied status outside the accepted four, or a
supplied position outside 1..3 is answered 400 by the validator and the
store - hence every field of every submission - is unchanged. -/
theorem grade_validation_spec (db : DB) (now : Int) (uid : Nat)
    (role : UserRole) (sid : Nat) (b : GradeReq)
    (hbad : (b.score < 0 ∨ 100 < b.score) ∨
      validGrades.contains b.grade = false ∨
      (∃ st, b.status = some st ∧ validGradeStatuses.contains st = false) ∨
      (∃ ps, b.position = some ps ∧ (ps < 1 ∨ 3 < ps))) :
    gradeSubmission db now uid role sid b = (.validationError, db) := by
  have hv : ¬ gradeBodyValid b = true := by
    intro h
    simp only [gradeBodyValid, Bool.and_eq_true, decide_eq_true_eq] at h
    obtain ⟨⟨⟨⟨hs0, hs100⟩, hgrade⟩, hstatus⟩, hpos⟩ := h
    rcases hbad with hs | hg | ⟨st, hst, hstc⟩ | ⟨ps, hps, hpsb⟩
    · omega
    · rw [hgrade] at hg
      exact Bool.true_eq_false.mp hg
    · rw [hst] at hstatus
      simp only at hstatus
      rw [hstatus] at hstc
      exact Bool.true_eq_false.mp hstc
    · rw [hps] at hpos
      simp only [Bool.and_eq_true, decide_eq_true_eq] at hpos
      omega
  have hv' : gradeBodyValid b = false := by simpa using hv
  simp [gradeSubmission, hv']

/-- Witness for C7 at `db10`: score 101 and grade Z are both refused with
the store unchanged. -/
theorem grade_validation_spec_witness :
    gradeSubmission db10 6 10 .admin 9 { score := 101, grade := "A" } =
      (.validationError, db10) ∧
    gradeSubmission db10 6 10 .admin 9 { score := 50, grade := "Z" } =
      (.validationError, db10) :=
  ⟨grade_validation_spec db10 6 10 .admin 9 { score := 101, grade := "A" }
    (Or.inl (Or.inr (by decide))),
   grade_validation_spec db10 6 10 .admin 9 { score := 50, grade := "Z" }
    (Or.inr (Or.inl (by decide)))⟩

/-! ## Claim C9: review idempotence and overwrite -/

theorem updateWhere_congr {α : Type} (p : α → Bool) (f g : α → α)
    (h : ∀ a, p a = true → f a = g a) :
    ∀ l : List α, updateWhere p f l = updateWhere p g l := by
  intro l
  induction l with
  | nil => rfl
  | cons x xs ih =>
    by_cases hx : p x = true
    · simp [updateWhere, hx, h x hx, ih]
    · have hx' : p x = false := by simpa using hx
      simp [updateWhere, hx', ih]

/-- **C9**: for an existing participation and an authorized reviewer (the
campaign's creator or an administrator), Review writes the decision onto
status and records reviewedAt, reviewedBy and the (trimmed) notes;
repeating the identical review leaves the store exactly as after the
first; and a re-review with the opposite decision succeeds and plainly
overwrites the row: when notes are supplied, the final row carries no
trace of the first review. -/
theorem review_spec (db : DB) (now now2 : Int) (uid : Nat) (role : UserRole)
    (pid : Nat) (d d2 : ReviewDecision) (notes notes2 : Option String)
    (hval : reviewBodyValid notes = true)
    (hval2 : reviewBodyValid notes2 = true)
    (p : Participation)
    (hp : db.participations.find? (fun q => q.id == pid) = some p)
    (c : Campaign) (hc : findCampaign db p.campaignId = some c)
    (hauth : c.createdBy = uid ∨ role = .admin) :
    reviewParticipation db now uid role pid d notes =
      (.ok (applyReview now uid d notes p),
       { db with
         participations := updateWhere (fun q => q.id == pid)
           (applyReview now uid d notes) db.participations }) ∧
    (applyReview now uid d notes p).status = d.toStatus ∧
    (applyReview now uid d notes p).reviewedAt = some now ∧
    (applyReview now uid d notes p).reviewedBy = some uid ∧
    (∀ n, notes = some n →
      (applyReview now uid d notes p).reviewNotes = some (trimChars n)) ∧
    (reviewParticipation (reviewParticipation db now uid role pid d notes).2
        now uid role pid d notes).2 =
      (reviewParticipation db now uid role pid d notes).2 ∧
    (reviewParticipation (reviewParticipation db now uid role pid d notes).2
        now2 uid role pid d2 notes2).1 =
      .ok (applyReview now2 uid d2 notes2 (applyReview now uid d notes p)) ∧
    (∀ n2, notes2 = some n2 →
      applyReview now2 uid d2 notes2 (applyReview now uid d notes p) =
        applyReview now2 uid d2 notes2 p) := by
  have hnand : ¬ (c.createdBy ≠ uid ∧ role ≠ .admin) := by tauto
  have hstep : reviewParticipation db now uid role pid d notes =
      (.ok (applyReview now uid d notes p),
       { db with
         participations := updateWhere (fun q => q.id == pid)
           (applyReview now uid d notes) db.participations }) := by
    simp [reviewParticipation, hval, hp, hc, hnand]
  have hfp : (updateWhere (fun q => q.id == pid)
      (applyReview now uid d notes) db.participations).find?
      (fun q => q.id == pid) = some (applyReview now uid d notes p) :=
    find?_updateWhere_some (fun (q : Participation) => q.id == pid)
      (applyReview now uid d notes) (fun a => rfl) db.participations p hp
  have hfp2 :
      ({ db with
          participations := updateWhere (fun q => q.id == pid)
            (applyReview now uid d notes)
            db.participations } : DB).participations.find?
        (fun q => q.id == pid) = some (applyReview now uid d notes p) := hfp
  have hfc2 :
      findCampaign
        { db with
          participations := updateWhere (fun q => q.id == pid)
            (applyReview now uid d notes) db.participations }
        (applyReview now uid d notes p).campaignId = some c := hc
  have hff : updateWhere (fun q => q.id == pid)
      (applyReview now uid d notes)
      (updateWhere (fun q => q.id == pid) (applyReview now uid d notes)
        db.participations) =
      updateWhere (fun q => q.id == pid) (applyReview now uid d notes)
        db.participations := by
    rw [updateWhere_updateWhere (fun (q : Participation) => q.id == pid)
      (applyReview now uid d notes) (applyReview now uid d notes)
      (fun a => rfl)]
    apply updateWhere_congr
    intro a _
    cases notes <;> simp [applyReview]
  refine ⟨hstep, rfl, rfl, rfl, ?_, ?_, ?_, ?_⟩
  · intro n hn
    simp [applyReview, hn]
  · rw [hstep]
    show (reviewParticipation _ now uid role pid d notes).2 = _
    simp [reviewParticipation, hval, hfp2, hfc2, hnand, hff]
  · rw [hstep]
    show (reviewParticipation _ now2 uid role pid d2 notes2).1 = _
    simp [reviewParticipation, hval2, hfp2, hfc2, hnand]
  · intro n2 hn2
    cases notes <;> simp [applyReview, hn2]

/-- Witness for C9 at `db10`: creator 10 reviews participation 3 with
notes; the written row, the idempotent repetition and the opposite-
decision overwrite are all exhibited. -/
theorem review_spec_witness :
    reviewParticipation db10 8 10 .baseUser 3 .approved (some "fine work") =
      (.ok (applyReview 8 10 .approved (some "fine work") part10),
       { db10 with
         participations := updateWhere (fun q => q.id == 3)
           (applyReview 8 10 .approved (some "fine work"))
           db10.participations }) ∧
    (reviewParticipation
        (reviewParticipation db10 8 10 .baseUser 3 .approved
          (some "fine work")).2 8 10 .baseUser 3 .approved
        (some "fine work")).2 =
      (reviewParticipation db10 8 10 .baseUser 3 .approved
        (some "fine work")).2 ∧
    (reviewParticipation
        (reviewParticipation db10 8 10 .baseUser 3 .approved
          (some "fine work")).2 9 10 .baseUser 3 .rejected
        (some "changed my mind")).1 =
      .ok (applyReview 9 10 .rejected (some "changed my mind")
        (applyReview 8 10 .approved (some "fine work") part10)) ∧
    applyReview 9 10 .rejected (some "changed my mind")
        (applyReview 8 10 .approved (some "fine work") part10) =
      applyReview 9 10 .rejected (some "changed my mind") part10 := by
  have h := review_spec db10 8 9 10 .baseUser 3 .approved .rejected
    (some "fine work") (some "changed my mind") (by decide) (by decide)
    part10 (by decide) camp10 (by decide) (Or.inl (by decide))
  exact ⟨h.1, h.2.2.2.2.2.1, h.2.2.2.2.2.2.1,
    h.2.2.2.2.2.2.2 "changed my mind" rfl⟩

/-! ## Claim C8: two concurrent ToggleLike calls from the same user

The controller runs its statements as separately awaited store operations
with no enclosing transaction: `findOne`, `create`/`destroy`,
`increment`/`decrement`, `reload` + respond.  The race model interleaves
two requests for the same (entity, user) at exactly those statement
boundaries.  `create` of an already-present row violates the unique index
and the handler's catch block answers 500 without running the counter
statement; `destroy` of an already-deleted row deletes nothing. -/

/-- The store columns the two racing requests touch: whether the Like row
for the (entity, user) pair exists, and the entity's likesCount. -/
structure RaceWorld where
  rowExists : Bool
  count : Int
deriving DecidableEq, Repr

/-- One request's progress.  pc 0: before `findOne`; 1: after `findOne`
(`sawLike` holds its result); 2: after the row statement; 3: after the
counter statement; 4: responded (`resp = some (some (liked, count))`) or
aborted through the catch block (`resp = some none`, the 500 answer). -/
structure RaceCall where
  pc : Nat
  sawLike : Bool
  resp : Option (Option (Bool × Int))
deriving DecidableEq, Repr

/-- One atomic statement of one request against the store. -/
def raceStep (w : RaceWorld) (c : RaceCall) : RaceWorld × RaceCall :=
  match c.pc with
  | 0 => (w, { c with pc := 1, sawLike := w.rowExists })
  | 1 =>
    if c.sawLike then
      ({ w with rowExists := false }, { c with pc := 2 })
    else if w.rowExists then
      (w, { c with pc := 4, resp := some none })
    else
      ({ w with rowExists := true }, { c with pc := 2 })
  | 2 =>
    if c.sawLike then
      ({ w with count := w.count - 1 }, { c with pc := 3 })
    else
      ({ w with count := w.count + 1 }, { c with pc := 3 })
  | 3 => (w, { c with pc := 4, resp := some (some (!c.sawLike, w.count)) })
  | _ => (w, c)

/-- The shared store together with the two in-flight requests. -/
structure RaceConfig where
  w : RaceWorld
  a : RaceCall
  b : RaceCall
deriving DecidableEq, Repr

/-- Scheduler lets request A run one statement. -/
def stepA (cfg : RaceConfig) : RaceConfig :=
  { cfg with w := (raceStep cfg.w cfg.a).1, a := (raceStep cfg.w cfg.a).2 }

/-- Scheduler lets request B run one statement. -/
def stepB (cfg : RaceConfig) : RaceConfig :=
  { cfg with w := (raceStep cfg.w cfg.b).1, b := (raceStep cfg.w cfg.b).2 }

/-- Run a schedule: `true` picks request A for the next statement, `false`
picks request B.  Steps of a finished request do nothing. -/
def raceRun (cfg : RaceConfig) : List Bool → RaceConfig
  | [] => cfg
  | pick :: rest => raceRun (if pick then stepA cfg else stepB cfg) rest

/-- Run request A to completion (four statements suffice). -/
def finishA (cfg : RaceConfig) : RaceConfig :=
  stepA (stepA (stepA (stepA cfg)))

/-- Run request B to completion. -/
def finishB (cfg : RaceConfig) : RaceConfig :=
  stepB (stepB (stepB (stepB cfg)))

/-- The claim's initial state: the user has not liked the entity and the
counter is consistent at 0; both requests are about to start. -/
def race0 : RaceConfig :=
  { w := { rowExists := false, count := 0 }
    a := { pc := 0, sawLike := false, resp := none }
    b := { pc := 0, sawLike := false, resp := none } }

/-- The outcome of an interleaving: run the schedule, then let each request
finish.  Every complete interleaving of the two requests is the outcome of
its own schedule (the finishing steps are then no-ops). -/
def raceOutcome (s : List Bool) : RaceConfig :=
  finishB (finishA (raceRun race0 s))

/-- The response reports liked=true. -/
def reportsLiked : Option (Option (Bool × Int)) → Bool
  | some (some (x, _)) => x
  | _ => false

/-- The request aborted through the catch block (the 500 answer the unique
index provokes on the losing `create`). -/
def isErrResp : Option (Option (Bool × Int)) → Bool
  | some none => true
  | _ => false

/-- The response reports liked=false: the request took the unlike branch. -/
def isUnlikeResp : Option (Option (Bool × Int)) → Bool
  | some (some (false, _)) => true
  | _ => false

/-- The C8 claim as the spec states it, over the race model: in every
interleaving, exactly one call reports liked=true with the count
incremented by one (here: 1), and the other is resolved as a duplicate -
rejected, or blocked and then reporting the same consistent liked state -
rather than acting as a second toggle. -/
@[reducible] def raceClaimStated : Prop :=
  ∀ s : List Bool,
    ((raceOutcome s).a.resp = some (some (true, 1)) ∧
      ((raceOutcome s).b.resp = some none ∨
       (raceOutcome s).b.resp = some (some (true, 1)))) ∨
    ((raceOutcome s).b.resp = some (some (true, 1)) ∧
      ((raceOutcome s).a.resp = some none ∨
       (raceOutcome s).a.resp = some (some (true, 1))))

/-- **C8 counterexample**: under the schedule where request A inserts the
Like row and request B then reads it, unlikes and decrements before A's
increment, A answers liked=true with count 0 (not incremented) and B
answers liked=false with count -1.  Neither branch of the stated claim
holds for this interleaving. -/
theorem raceClaimStated_false : ¬ raceClaimStated := by
  intro h
  have h6 := h [true, true, false, false, false, false]
  revert h6
  decide

/-- Successor configurations under the two schedulers. -/
def raceNext (cfg : RaceConfig) : List RaceConfig := [stepA cfg, stepB cfg]

/-- One breadth-first expansion of a configuration set. -/
def raceExpand (l : List RaceConfig) : List RaceConfig :=
  (l ++ l.flatMap raceNext).dedup

/-- All configurations reachable from `race0` (nine expansions exceed the
at most eight statements the two requests can take). -/
def raceReachable : List RaceConfig := raceExpand^[9] [race0]

set_option maxRecDepth 100000 in
theorem race0_mem : race0 ∈ raceReachable := by decide

set_option maxRecDepth 100000 in
set_option maxHeartbeats 1000000 in
theorem raceReachable_closed :
    ∀ cfg ∈ raceReachable,
      stepA cfg ∈ raceReachable ∧ stepB cfg ∈ raceReachable := by decide

theorem raceRun_mem (s : List Bool) :
    ∀ cfg ∈ raceReachable, raceRun cfg s ∈ raceReachable := by
  induction s with
  | nil => intro cfg h; exact h
  | cons pick rest ih =>
    intro cfg h
    show raceRun (if pick then stepA cfg else stepB cfg) rest ∈ raceReachable
    cases pick
    · exact ih _ (raceReachable_closed cfg h).2
    · exact ih _ (raceReachable_closed cfg h).1

/-- The amended per-interleaving property, as one Boolean check. -/
def raceFinalOK (cfg : RaceConfig) : Bool :=
  let f := finishB (finishA cfg)
  (f.w.count == (if f.w.rowExists then 1 else 0)) &&
  ((reportsLiked f.a.resp && (isErrResp f.b.resp || isUnlikeResp f.b.resp)) ||
   (reportsLiked f.b.resp && (isErrResp f.a.resp || isUnlikeResp f.a.resp)))

set_option maxRecDepth 100000 in
set_option maxHeartbeats 1000000 in
theorem raceFinal_all : ∀ cfg ∈ raceReachable, raceFinalOK cfg = true := by
  decide

/-- **C8 amended**: for every interleaving of the two requests from the
not-yet-liked consistent state, the final counter equals the number of
surviving Like rows (no final off-by-one in this two-call scenario), and
exactly one request reports liked=true while the other either aborts with
the 500 the unique index provokes (an error, not a no-op state query) or
has performed the unlike branch and reports liked=false.  The request
reporting liked=true need not report the incremented count, as the
counterexample shows. -/
theorem race_amended (s : List Bool) :
    (raceOutcome s).w.count =
      (if (raceOutcome s).w.rowExists then 1 else 0) ∧
    ((reportsLiked (raceOutcome s).a.resp = true ∧
      (isErrResp (raceOutcome s).b.resp = true ∨
       isUnlikeResp (raceOutcome s).b.resp = true)) ∨
     (reportsLiked (raceOutcome s).b.resp = true ∧
      (isErrResp (raceOutcome s).a.resp = true ∨
       isUnlikeResp (raceOutcome s).a.resp = true))) := by
  have hmem := raceRun_mem s race0 race0_mem
  have hok := raceFinal_all _ hmem
  simp only [raceFinalOK, Bool.and_eq_true, Bool.or_eq_true,
    beq_iff_eq] at hok
  obtain ⟨h1, h2⟩ := hok
  exact ⟨h1, h2⟩

/-- Sanity check tying the race model to the sequential controller: the
serial schedule (A fully, then B) gives the same two responses as two
sequential `toggleLike` calls on the matching one-campaign store. -/
theorem race_serial_matches_toggle :
    (raceOutcome []).a.resp = some (some (true, 1)) ∧
    (raceOutcome []).b.resp = some (some (false, 0)) ∧
    (toggleCampaignLike db0 (some 7) 1).1 = .ok true 1 ∧
    (toggleCampaignLike (toggleCampaignLike db0 (some 7) 1).2 (some 7) 1).1 =
      .ok false 0 := by
  decide

end FundHub
